import Mathlib

/-!
# Verification of the Market-insight-bot core against its specification

Shallow embedding of the repository's core logic:

* `MonitoredCache` (src/data_modules/market_data/processor.py): a keyed
  expiring cache backed by a Python dict.  A Python dict is modelled as an
  association list in insertion order (Python dicts preserve insertion order,
  and updating an existing key keeps its position).  `time.time()` is modelled
  as an explicit integer-valued clock passed to each operation.
* `BinanceUSDMarginFetcher._handle_socket`
  (src/data_modules/market_data/binance_fetcher.py): the reconnect loop with
  exponential backoff, embedded under forced repeated connection failure.
* `ZMQManager.receive_message` (src/communication/zmq_manager.py).
* `NewsAnalyzer` (src/ai_analyzers/news_analyzer.py): the buffered,
  multi-counter analysis-trigger engine.

Externally observable actions (collaborator invocations, log lines, baseline
assignments) are recorded as explicit trace events so that ordering and
counting claims can be stated.
-/

namespace MarketInsight

/-! ## Keyed expiring cache (`MonitoredCache`) -/

section Cache

variable {K V : Type} [DecidableEq K] [DecidableEq V]

/-- One entry of the cache's backing dict `self._data`: key ↦ (value, timestamp).
Timestamps (`time.time()`) are modelled as integers. -/
structure CacheEntry (K V : Type) where
  key : K
  value : V
  ts : Int
  deriving DecidableEq, Repr

/-- Trace events emitted by cache operations: the two log lines of
`MonitoredCache.__setitem__` / `__delitem__`. -/
inductive CacheEvent (K V : Type) where
  /-- The log line `logger.info("缓存新增 - 键: ..., 值: ...")` on first insert
  of a key. -/
  | inserted (key : K) (value : V)
  /-- The log line `logger.info("缓存过期 - 键: ..., 值: ...")` on deletion. -/
  | expired (key : K) (value : V)
  deriving DecidableEq, Repr

/-- The cache object: `maxsize`, `ttl` and the backing dict `_data`,
the latter as an insertion-ordered association list. -/
structure MonitoredCache (K V : Type) where
  maxsize : Nat
  ttl : Int
  data : List (CacheEntry K V)
  deriving DecidableEq, Repr

/-- Python `self._data.get(key)`: the (unique) entry with the given key. -/
def dictGet (d : List (CacheEntry K V)) (key : K) : Option (CacheEntry K V) :=
  match d with
  | [] => none
  | e :: rest => if e.key = key then some e else dictGet rest key

/-- Python `self._data[key] = (value, now)` on a dict: overwrite in place if
the key is present (keeping its position), otherwise append at the end. -/
def dictSet (d : List (CacheEntry K V)) (key : K) (value : V) (now : Int) :
    List (CacheEntry K V) :=
  match d with
  | [] => [⟨key, value, now⟩]
  | e :: rest =>
      if e.key = key then ⟨key, value, now⟩ :: rest
      else e :: dictSet rest key value now

/-- Python `del self._data[key]` on a dict: remove the (unique) entry holding
`key`.  Since a dict holds at most one entry per key, removal is modelled as
filtering that key out. -/
def dictDel (d : List (CacheEntry K V)) (key : K) : List (CacheEntry K V) :=
  match d with
  | [] => []
  | e :: rest => if e.key = key then dictDel rest key else e :: dictDel rest key

/-- Python `min(self._data.items(), key=lambda x: x[1][1])` over a nonempty dict,
written as a fold from the first entry: Python's `min` keeps the first
occurrence of the minimal timestamp. -/
def minAccTs (a : CacheEntry K V) (l : List (CacheEntry K V)) : CacheEntry K V :=
  l.foldl (fun acc e => if e.ts < acc.ts then e else acc) a

/-- Source `MonitoredCache.__delitem__` (processor.py:51): if the key is present, log
the "缓存过期" event and delete the entry; otherwise do nothing. -/
def MonitoredCache.delItem (c : MonitoredCache K V) (key : K) :
    MonitoredCache K V × List (CacheEvent K V) :=
  match dictGet c.data key with
  | some e => ({ c with data := dictDel c.data key }, [.expired key e.value])
  | none => (c, [])

/-- Outcome of a `MonitoredCache.__setitem__` call.  `done` is a normal return
with the resulting cache state and the log events emitted during the call.
`stuck` is a call that never returns: `__setitem__` runs its whole body inside
`with self._lock:` (processor.py:27) where `self._lock` is a non-reentrant
`threading.Lock`, and its size-control branch calls `self.__delitem__`
(processor.py:40), whose own `with self._lock:` (processor.py:52) then blocks
forever on the already-held lock.  `stuck` carries the backing dict as it
stands at the moment of blocking (the insert has already been stored) and the
log events emitted before blocking (the "缓存新增" line, if any); the lock is
never released, so this state is final. -/
inductive SetOutcome (K V : Type) where
  /-- Normal return: resulting cache and the events emitted by the call. -/
  | done (c : MonitoredCache K V) (events : List (CacheEvent K V))
  /-- The call blocked forever inside `__delitem__`'s lock acquisition;
  `held` is the dict at that moment, `events` what was logged before. -/
  | stuck (held : List (CacheEntry K V)) (events : List (CacheEvent K V))
  deriving DecidableEq, Repr

/-- Source `MonitoredCache.__setitem__` (processor.py:26): with `now = time.time()`,
refresh silently when overwriting with an unchanged value; log "缓存新增" when
the key is new; always store `(value, now)`; then, if the dict now exceeds
`maxsize`, compute the oldest key with `min(self._data.items(), ...)` and call
`self.__delitem__(oldest_key)` — which deadlocks: `__delitem__` re-acquires
the non-reentrant `self._lock` that `__setitem__` is still holding, so the
call blocks forever before deleting or logging anything, and the outcome is
`stuck` with the post-insert dict and the events emitted so far. -/
def MonitoredCache.setItem (c : MonitoredCache K V) (key : K) (value : V)
    (now : Int) : SetOutcome K V :=
  let old := dictGet c.data key
  match old with
  | some e =>
      if e.value = value then
        .done { c with data := dictSet c.data key value now } []
      else
        let d := dictSet c.data key value now
        if d.length > c.maxsize then .stuck d []
        else .done { c with data := d } []
  | none =>
      let evIns : List (CacheEvent K V) := [.inserted key value]
      let d := dictSet c.data key value now
      if d.length > c.maxsize then .stuck d evIns
      else .done { c with data := d } evIns

/-- Source `MonitoredCache.get` (processor.py:46): stored value or `None`. -/
def MonitoredCache.get (c : MonitoredCache K V) (key : K) : Option V :=
  (dictGet c.data key).map (·.value)

/-- One pass of the body of `MonitoredCache._monitor_expiry` (processor.py:66):
snapshot the keys whose age strictly exceeds `ttl`, then delete each via
`__delitem__`. -/
def MonitoredCache.sweep (c : MonitoredCache K V) (now : Int) :
    MonitoredCache K V × List (CacheEvent K V) :=
  let expired := (c.data.filter (fun e => now - e.ts > c.ttl)).map (·.key)
  expired.foldl
    (fun acc k => ((acc.1.delItem k).1, acc.2 ++ (acc.1.delItem k).2))
    (c, [])

/-- The dict invariant: keys are pairwise distinct. -/
def keysNodup (d : List (CacheEntry K V)) : Prop :=
  (d.map (·.key)).Nodup

end Cache

/-! ## Resilient stream ingestion (`BinanceUSDMarginFetcher._handle_socket`) -/

/-- Reconnect configuration constant (binance_fetcher.py:14). -/
def MAX_RECONNECT_ATTEMPTS : Nat := 5

/-- Reconnect configuration constant (binance_fetcher.py:15), seconds. -/
def RECONNECT_DELAY : Int := 5

/-- Reconnect configuration constant (binance_fetcher.py:16), seconds. -/
def MAX_RECONNECT_DELAY : Int := 60

/-- Observable actions of `_handle_socket` (binance_fetcher.py:122). -/
inductive SockEvent where
  /-- Entering `async with socket_context` — one connection attempt. -/
  | connectAttempt
  /-- The `except Exception` branch: `logger.error("Connection ... lost")`. -/
  | connectionLost
  /-- The `await asyncio.sleep(delay)` before the next reconnection attempt. -/
  | sleep (delay : Int)
  /-- The `logger.error("Max reconnection attempts ... Giving up.")` and `break`. -/
  | giveUp
  deriving DecidableEq, Repr

/-- The `while self._is_running` loop of `_handle_socket`
(binance_fetcher.py:131-168) under forced repeated connection failure: the
fetcher keeps running (`_is_running` stays true) and every entry into
`async with socket_context` raises, so `reconnect_attempts` is never reset.
`attempts` is the current value of `reconnect_attempts`; each iteration
attempts a connection, fails, increments the counter, and either gives up
(once the counter exceeds `maxA`) or sleeps
`min(base * 2 ** (attempts - 1), cap)` and retries. -/
def socketLoopForcedFailure (base cap : Int) (maxA : Nat) (attempts : Nat) :
    List SockEvent :=
  let a := attempts + 1
  if h : a > maxA then
    [.connectAttempt, .connectionLost, .giveUp]
  else
    .connectAttempt :: .connectionLost ::
      .sleep (min (base * 2 ^ (a - 1)) cap) ::
        socketLoopForcedFailure base cap maxA a
termination_by maxA - attempts
decreasing_by
  simp only [not_lt] at h
  omega

/-- Whole run of `_handle_socket` under forced repeated connection failure, starting from
`reconnect_attempts = 0` (binance_fetcher.py:131). -/
def handleSocketForcedFailure (base cap : Int) (maxA : Nat) : List SockEvent :=
  socketLoopForcedFailure base cap maxA 0

/-- The backoff delays (arguments of the `sleep` events) of a trace, in order. -/
def delaysOf (tr : List SockEvent) : List Int :=
  tr.filterMap (fun e => match e with | .sleep d => some d | _ => none)

/-- Number of connection attempts in a trace. -/
def attemptCount (tr : List SockEvent) : Nat :=
  tr.countP (fun e => e = .connectAttempt)

/-! ## Message bus receive (`ZMQManager.receive_message`) -/

/-- Python exceptions that the embedded code can raise. -/
inductive PyError where
  | attributeError
  | unicodeDecodeError
  | jsonDecodeError
  | valueError
  | typeError
  deriving DecidableEq, Repr

/-- A JSON value as produced by Python's `json.loads`.  Numbers are modelled
as rationals (decimal literals are exact rationals). -/
inductive JsonValue where
  | null
  | bool (b : Bool)
  | num (q : ℚ)
  | str (s : String)
  | arr (elems : List JsonValue)
  | obj (fields : List (String × JsonValue))

/-- Python truthiness of a JSON value (`if x:`). -/
def pyTruthy : JsonValue → Bool
  | .null => false
  | .bool b => b
  | .num q => q ≠ 0
  | .str s => s ≠ ""
  | .arr l => !l.isEmpty
  | .obj l => !l.isEmpty

/-- Outcome of `subscriber_socket.recv_multipart`: either the `zmq.Again`
exception (nonblocking mode with no message queued) or a list of raw frames.
Raw bytes are modelled as lists of naturals. -/
inductive RecvOutcome where
  | again
  | frames (fs : List (List Nat))
  deriving DecidableEq, Repr

/-- Source `ZMQManager.receive_message` (zmq_manager.py:88): unpack the two frames,
decode both as UTF-8, parse the payload as JSON.  Only `zmq.Again` is caught
(returning `None`); a frame-count mismatch, a UTF-8 decode failure or a JSON
parse failure raises to the caller.  `decodeUtf8` and `jsonLoads` are the
library decoding functions, taken as parameters (`none` = the corresponding
exception). -/
def receive_message (decodeUtf8 : List Nat → Option String)
    (jsonLoads : String → Option JsonValue) (outcome : RecvOutcome) :
    Except PyError (Option (String × JsonValue)) :=
  match outcome with
  | .again => .ok none
  | .frames fs =>
      match fs with
      | [topicBytes, messageBytes] =>
          match decodeUtf8 topicBytes with
          | none => .error .unicodeDecodeError
          | some topic =>
              match decodeUtf8 messageBytes with
              | none => .error .unicodeDecodeError
              | some s =>
                  match jsonLoads s with
                  | none => .error .jsonDecodeError
                  | some m => .ok (some (topic, m))
      | _ => .error .valueError

/-! ## Buffered analysis trigger engine (`NewsAnalyzer`) -/

/-- A message dict as ingested by `NewsAnalyzer.add_message`.  The source reads
the fields via `dict.get`, so each is optional. -/
structure MessageData where
  channel : Option String
  text : Option String
  date : Option String
  message_type : Option String
  deriving DecidableEq, Repr

/-- Python `x or default` for an optional string: `None` and the empty string
are falsy and replaced by the default. -/
def pyOrStr (x : Option String) (dflt : String) : String :=
  match x with
  | none => dflt
  | some s => if s = "" then dflt else s

/-- Python `str.lower()`, modelled character-wise over the string's
characters (the values it is compared against here are ASCII). -/
def pyLower (s : String) : String := ⟨s.data.map Char.toLower⟩

/-- Python `str.strip()`: remove leading and trailing whitespace,
modelled character-wise. -/
def pyStrip (s : String) : String :=
  ⟨((s.data.dropWhile Char.isWhitespace).reverse.dropWhile
    Char.isWhitespace).reverse⟩

/-- Python `s.startswith(pre)`, modelled character-wise. -/
def pyStartsWith (s pre : String) : Bool := pre.data.isPrefixOf s.data

/-- Python `s.endswith(suf)`, modelled character-wise. -/
def pyEndsWith (s suf : String) : Bool := suf.data.isSuffixOf s.data

/-- Python `s[n:]` on a string, modelled character-wise. -/
def pyDrop (s : String) (n : Nat) : String := ⟨s.data.drop n⟩

/-- Python `s[:-n]` on a string (for `n > 0`), modelled character-wise. -/
def pyDropRight (s : String) (n : Nat) : String :=
  ⟨s.data.take (s.data.length - n)⟩

/-- Python `lst[-n:]` for a nonnegative `n`: the last `n` elements
(the whole list when `n = 0`, since `lst[-0:] = lst[0:]`). -/
def pySliceLast {α : Type} (l : List α) (n : Nat) : List α :=
  if n = 0 then l else l.drop (l.length - n)

/-- Append on `collections.deque(maxlen=N)`: when full, the oldest entry is
dropped from the left. -/
def dequeAppend {α : Type} (buf : List α) (maxlen : Nat) (x : α) : List α :=
  let b := buf ++ [x]
  b.drop (b.length - maxlen)

/-- Call sites of `summarize_recent_messages` in the source, recorded in the
trace so that the per-category trigger calls (news_analyzer.py:92 and :108)
can be told apart from the analysis-cycle calls (news_analyzer.py:317
and :320). -/
inductive SummarySite where
  /-- The channel-interval trigger in `add_message` (news_analyzer.py:92). -/
  | channelTrigger
  /-- The group-interval trigger in `add_message` (news_analyzer.py:108). -/
  | groupTrigger
  /-- The channel summary gathered in `analyze_messages` (news_analyzer.py:317). -/
  | analysisChannel
  /-- The group summary gathered in `analyze_messages` (news_analyzer.py:320). -/
  | analysisGroup
  deriving DecidableEq, Repr

/-- The data composed into the alert email by `_send_alert_email`
(news_analyzer.py:334): the markdown rendering into one string (timestamp,
emoji, percent formatting) is abstracted; the fields are exactly the dynamic
values the source interpolates into the email body. -/
structure AlertReport where
  volatility_result : JsonValue
  channel_summary : Option String
  group_summary : Option String
  buffer_len : Nat
  message_count : Int
  model : String

/-- Observable actions of the trigger engine, recorded in order. -/
inductive AnalyzerEvent where
  /-- An invocation of the Summarization collaborator:
  `summarize_recent_messages` reaching its API call, with the call site, the
  `message_type` filter and `num_messages`. -/
  | summarizeCall (site : SummarySite) (message_type : Option String)
      (num_messages : Nat)
  /-- An invocation of the Combined-Assessment collaborator:
  `analyze_market_volatility` reaching its API call. -/
  | volatilityCall (num_messages : Nat)
  /-- An invocation of the Alert Dispatcher: the `send_markdown_email` call
  inside `_send_alert_email` (news_analyzer.py:417). -/
  | sendEmailCall (report : AlertReport)
  /-- The assignment `self.last_channel_summary_count = self.channel_message_count`
  (news_analyzer.py:99). -/
  | setLastChannelSummaryCount (n : Int)
  /-- The assignment `self.last_group_summary_count = self.group_message_count`
  (news_analyzer.py:115). -/
  | setLastGroupSummaryCount (n : Int)
  /-- The assignment `self.last_analysis_count = self.message_count`
  (news_analyzer.py:120). -/
  | setLastAnalysisCount (n : Int)
  /-- A `logger.success` line, identified by a tag. -/
  | logSuccess (tag : String)
  /-- A `logger.info` line, identified by a tag. -/
  | logInfo (tag : String)
  /-- A `logger.warning` line, identified by a tag. -/
  | logWarning (tag : String)
  /-- A `logger.error` line, identified by a tag. -/
  | logError (tag : String)

/-- The mutable state of a `NewsAnalyzer` instance together with its
configuration (news_analyzer.py:23-69). -/
structure NewsAnalyzer where
  model : String
  message_buffer_size : Nat
  analysis_interval : Int
  summary_interval_channel : Int
  summary_interval_group : Int
  summary_message_count : Nat
  volatility_message_count : Nat
  message_buffer : List MessageData
  message_count : Int
  last_analysis_count : Int
  channel_message_count : Int
  group_message_count : Int
  last_channel_summary_count : Int
  last_group_summary_count : Int

/-- Fresh analyzer state as built by `NewsAnalyzer.__init__`
(news_analyzer.py:60-69): empty buffer, all counters and baselines zero. -/
def NewsAnalyzer.init (model : String) (message_buffer_size : Nat)
    (analysis_interval summary_interval_channel summary_interval_group : Int)
    (summary_message_count volatility_message_count : Nat) : NewsAnalyzer where
  model := model
  message_buffer_size := message_buffer_size
  analysis_interval := analysis_interval
  summary_interval_channel := summary_interval_channel
  summary_interval_group := summary_interval_group
  summary_message_count := summary_message_count
  volatility_message_count := volatility_message_count
  message_buffer := []
  message_count := 0
  last_analysis_count := 0
  channel_message_count := 0
  group_message_count := 0
  last_channel_summary_count := 0
  last_group_summary_count := 0

/-- The external collaborators at their §6 boundary.  `summarizeResp` and
`volatilityResp` model the Qwen API response (`_call_qwen_api`) for the two
prompt families, as a function of the data the prompt is built from (the
`message_type` filter and the sampled messages); `none` is an API failure.
`jsonLoads` models Python's `json.loads` (`none` = `JSONDecodeError`).
`sendEmailResult` models `send_markdown_email`: `some b` returns success flag
`b`, `none` raises. -/
structure Env where
  summarizeResp : Option String → List MessageData → Option String
  volatilityResp : List MessageData → Option String
  jsonLoads : String → Option JsonValue
  sendEmailResult : Option Bool

/-- Python `d.get(key)` on a JSON value: a missing key yields `None`
(modelled by `JsonValue.null`); a receiver that is not a dict raises
`AttributeError`. -/
def JsonValue.pyGet (v : JsonValue) (key : String) : Except PyError JsonValue :=
  match v with
  | .obj fields =>
      .ok (match fields.find? (fun p => p.1 = key) with
        | some p => p.2
        | none => .null)
  | _ => .error .attributeError

/-- Python `d.get(key, dflt)` on a JSON value. -/
def JsonValue.pyGetD (v : JsonValue) (key : String) (dflt : JsonValue) :
    Except PyError JsonValue :=
  match v with
  | .obj fields =>
      .ok (match fields.find? (fun p => p.1 = key) with
        | some p => p.2
        | none => dflt)
  | _ => .error .attributeError

/-- Source `NewsAnalyzer.summarize_recent_messages` (news_analyzer.py:158):
empty buffer returns `None` without calling the collaborator; otherwise the
buffer is filtered by `message_type` (when given), the last `num_messages`
are sampled, and the Summarization collaborator is invoked on them.  Prompt
construction from the sampled messages is folded into `env.summarizeResp`;
`site` is trace instrumentation naming the call site. -/
def NewsAnalyzer.summarize_recent_messages (st : NewsAnalyzer) (env : Env)
    (site : SummarySite) (num_messages : Nat) (message_type : Option String) :
    Option String × List AnalyzerEvent :=
  if st.message_buffer.isEmpty then
    (none, [.logWarning ("No messages in buffer to summarize")])
  else
    let recent :=
      match message_type with
      | some t =>
          pySliceLast
            (st.message_buffer.filter
              (fun m => pyLower (pyOrStr m.message_type "") = t))
            num_messages
      | none => pySliceLast st.message_buffer num_messages
    (env.summarizeResp message_type recent,
      [.summarizeCall site message_type num_messages])

/-- The markdown code-fence stripping applied to the Combined-Assessment
response before `json.loads` (news_analyzer.py:283-291). -/
def stripCodeFences (s0 : String) : String :=
  let s1 := pyStrip s0
  let s2 := if pyStartsWith s1 ("```json") then pyDrop s1 7 else s1
  let s3 := if pyStartsWith s2 ("```") then pyDrop s2 3 else s2
  let s4 := if pyEndsWith s3 ("```") then pyDropRight s3 3 else s3
  pyStrip s4

/-- Source `NewsAnalyzer.analyze_market_volatility` (news_analyzer.py:217):
empty buffer returns `None`; otherwise the Combined-Assessment collaborator is
invoked on the last `num_messages` buffered messages.  A falsy response
(`None` or the empty string) yields `None`; otherwise markdown fences are
stripped and the response is parsed with `json.loads`, where only
`JSONDecodeError` is caught (logged, yielding `None`) — any successfully
parsed JSON value is returned as-is, with no schema validation. -/
def NewsAnalyzer.analyze_market_volatility (st : NewsAnalyzer) (env : Env)
    (num_messages : Nat) : Option JsonValue × List AnalyzerEvent :=
  if st.message_buffer.isEmpty then
    (none, [.logWarning ("No messages in buffer to analyze")])
  else
    let recent := pySliceLast st.message_buffer num_messages
    let evCall := [AnalyzerEvent.volatilityCall num_messages]
    match env.volatilityResp recent with
    | none => (none, evCall)
    | some response =>
        if response = "" then (none, evCall)
        else
          match env.jsonLoads (stripCodeFences response) with
          | some result => (some result, evCall)
          | none => (none, evCall ++ [.logError ("Failed to parse JSON response")])

/-- Source `NewsAnalyzer._send_alert_email` (news_analyzer.py:334): compose the
report and invoke `send_markdown_email` inside `try/except`, so a dispatcher
failure is logged and never raises past the call site.  The preceding content
composition reads `volatility_result` with `.get`; a non-dict receiver raises
`AttributeError`, a truthy non-iterable `hot_topics` raises on iteration, and
a non-numeric `confidence` raises in the numeric formatting — those
pre-dispatch errors propagate. -/
def NewsAnalyzer.send_alert_email (st : NewsAnalyzer) (env : Env)
    (volatility_result : JsonValue) (channel_summary group_summary : Option String) :
    Except PyError (List AnalyzerEvent) :=
  match volatility_result.pyGet ("volatility_increased") with
  | .error e => .error e
  | .ok _ =>
    match volatility_result.pyGet ("activity_increased") with
    | .error e => .error e
    | .ok _ =>
      match volatility_result.pyGetD ("hot_topics") (.arr []) with
      | .error e => .error e
      | .ok hot_topics =>
        let iterOk : Except PyError Unit :=
          if pyTruthy hot_topics then
            match hot_topics with
            | .arr _ => .ok ()
            | .str _ => .ok ()
            | .obj _ => .ok ()
            | _ => .error .typeError
          else .ok ()
        match iterOk with
        | .error e => .error e
        | .ok _ =>
          match volatility_result.pyGetD ("confidence") (.num 0) with
          | .error e => .error e
          | .ok confidence =>
            match confidence with
            | .num _ | .bool _ =>
              match volatility_result.pyGetD ("summary") (.str "暂无详细说明") with
              | .error e => .error e
              | .ok _ =>
                let report : AlertReport :=
                  { volatility_result := volatility_result
                    channel_summary := channel_summary
                    group_summary := group_summary
                    buffer_len := st.message_buffer.length
                    message_count := st.message_count
                    model := st.model }
                match env.sendEmailResult with
                | some true =>
                    .ok [.sendEmailCall report,
                      .logSuccess ("Alert email sent successfully")]
                | some false =>
                    .ok [.sendEmailCall report,
                      .logError ("Failed to send alert email")]
                | none =>
                    .ok [.sendEmailCall report,
                      .logError ("Error sending alert email")]
            | _ => .error .typeError

/-- Source `NewsAnalyzer.analyze_messages` (news_analyzer.py:299): run the
Combined-Assessment; on a truthy result gather the channel and group
summaries, then dispatch the alert when `volatility_increased` or
`activity_increased` is truthy (short-circuit `or`); a falsy or absent result
only logs a warning.  `AttributeError` from `.get` on a non-dict result
propagates; side effects performed before the raise stay in the trace. -/
def NewsAnalyzer.analyze_messages (st : NewsAnalyzer) (env : Env) :
    List AnalyzerEvent × Except PyError Unit :=
  let ev0 := [AnalyzerEvent.logInfo ("Starting analysis")]
  let (vres, ev1) := st.analyze_market_volatility env st.volatility_message_count
  match vres with
  | none =>
      (ev0 ++ ev1 ++ [.logWarning ("Failed to analyze market volatility")], .ok ())
  | some v =>
    if pyTruthy v then
      let ev2 := [AnalyzerEvent.logInfo ("Volatility Analysis Result")]
      let (channel_summary, ev3) :=
        st.summarize_recent_messages env .analysisChannel
          st.summary_message_count (some "channel")
      let (group_summary, ev4) :=
        st.summarize_recent_messages env .analysisGroup
          st.summary_message_count (some "group")
      let evs := ev0 ++ ev1 ++ ev2 ++ ev3 ++ ev4
      match v.pyGet ("volatility_increased") with
      | .error e => (evs, .error e)
      | .ok vi =>
        if pyTruthy vi then
          match st.send_alert_email env v channel_summary group_summary with
          | .error e => (evs, .error e)
          | .ok ev5 => (evs ++ ev5, .ok ())
        else
          match v.pyGet ("activity_increased") with
          | .error e => (evs, .error e)
          | .ok ai =>
            if pyTruthy ai then
              match st.send_alert_email env v channel_summary group_summary with
              | .error e => (evs, .error e)
              | .ok ev5 => (evs ++ ev5, .ok ())
            else
              (evs ++ [.logInfo
                ("No significant market volatility or activity increase detected")],
                .ok ())
    else
      (ev0 ++ ev1 ++ [.logWarning ("Failed to analyze market volatility")], .ok ())

/-- The tail of `NewsAnalyzer.add_message` (news_analyzer.py:117-120): if the
global counter has advanced by at least `analysis_interval` since the last
analysis, run `analyze_messages` and then set
`last_analysis_count = message_count`.  An exception from `analyze_messages`
propagates, skipping that assignment.  `evCat` is the event trace already
accumulated by the category step of the same call. -/
def NewsAnalyzer.analysisStep (st2 : NewsAnalyzer) (env : Env)
    (evCat : List AnalyzerEvent) :
    NewsAnalyzer × List AnalyzerEvent × Except PyError Unit :=
  if st2.message_count - st2.last_analysis_count ≥ st2.analysis_interval then
    let r := st2.analyze_messages env
    match r.2 with
    | .error e => (st2, evCat ++ r.1, .error e)
    | .ok _ =>
        ({ st2 with last_analysis_count := st2.message_count },
          evCat ++ r.1 ++ [.setLastAnalysisCount st2.message_count], .ok ())
  else (st2, evCat, .ok ())

/-- Source `NewsAnalyzer.add_message` (news_analyzer.py:73): append to the
ring buffer, bump the global counter, classify the message type; on reaching
the matching category interval, invoke the Summarization collaborator and
then reset that category's baseline; finally, run the analysis step
(`NewsAnalyzer.analysisStep`). -/
def NewsAnalyzer.add_message (st : NewsAnalyzer) (env : Env)
    (message_data : MessageData) :
    NewsAnalyzer × List AnalyzerEvent × Except PyError Unit :=
  let st1 := { st with
    message_buffer := dequeAppend st.message_buffer st.message_buffer_size message_data
    message_count := st.message_count + 1 }
  let msg_type := pyLower (pyOrStr message_data.message_type "unknown")
  let catStep : NewsAnalyzer × List AnalyzerEvent :=
    if msg_type = "channel" then
      let stc := { st1 with channel_message_count := st1.channel_message_count + 1 }
      if stc.channel_message_count - stc.last_channel_summary_count ≥
          stc.summary_interval_channel then
        let (summary, evs) :=
          stc.summarize_recent_messages env .channelTrigger
            stc.summary_message_count (some "channel")
        let evLog :=
          match summary with
          | some _ => [AnalyzerEvent.logSuccess ("Channel Summary")]
          | none => [AnalyzerEvent.logWarning ("Channel Summary Failed to generate summary")]
        ({ stc with last_channel_summary_count := stc.channel_message_count },
          evs ++ evLog ++ [.setLastChannelSummaryCount stc.channel_message_count])
      else (stc, [])
    else if msg_type = "group" then
      let stg := { st1 with group_message_count := st1.group_message_count + 1 }
      if stg.group_message_count - stg.last_group_summary_count ≥
          stg.summary_interval_group then
        let (summary, evs) :=
          stg.summarize_recent_messages env .groupTrigger
            stg.summary_message_count (some "group")
        let evLog :=
          match summary with
          | some _ => [AnalyzerEvent.logSuccess ("Group Summary")]
          | none => [AnalyzerEvent.logWarning ("Group Summary Failed to generate summary")]
        ({ stg with last_group_summary_count := stg.group_message_count },
          evs ++ evLog ++ [.setLastGroupSummaryCount stg.group_message_count])
      else (stg, [])
    else (st1, [])
  NewsAnalyzer.analysisStep catStep.1 env catStep.2

/-- A stream of messages fed to the analyzer one by one, as done by
`NewsProcessor.process_news` (news/processor.py:127-145): each message is
passed to `add_message`, and an exception raised there is caught and logged
by the processor, which then continues with the next message. -/
def runMessages (env : Env) (st : NewsAnalyzer) (msgs : List MessageData) :
    NewsAnalyzer × List AnalyzerEvent :=
  match msgs with
  | [] => (st, [])
  | m :: rest =>
      let r := st.add_message env m
      let ev1 :=
        match r.2.2 with
        | .ok _ => r.2.1
        | .error _ =>
            r.2.1 ++ [.logError ("Error adding message to AI analyzer")]
      let rr := runMessages env r.1 rest
      (rr.1, ev1 ++ rr.2)

/-- Recognizer for a channel-category trigger summarization call
(news_analyzer.py:92). -/
def isChannelTriggerCall : AnalyzerEvent → Bool
  | .summarizeCall .channelTrigger _ _ => true
  | _ => false

/-- Recognizer for a group-category trigger summarization call
(news_analyzer.py:108). -/
def isGroupTriggerCall : AnalyzerEvent → Bool
  | .summarizeCall .groupTrigger _ _ => true
  | _ => false

/-- Recognizer for any Summarization collaborator invocation. -/
def isSummarizeCall : AnalyzerEvent → Bool
  | .summarizeCall _ _ _ => true
  | _ => false

/-- Recognizer for an Alert Dispatcher invocation. -/
def isSendEmailCall : AnalyzerEvent → Bool
  | .sendEmailCall _ => true
  | _ => false

/-- Recognizer for the channel-baseline assignment (news_analyzer.py:99). -/
def isSetChannelBaseline : AnalyzerEvent → Bool
  | .setLastChannelSummaryCount _ => true
  | _ => false

/-- Recognizer for a summarization call at a given site. -/
def isSummarizeAt (site : SummarySite) : AnalyzerEvent → Bool
  | .summarizeCall s _ _ => s = site
  | _ => false

/-- The message type of a message dict as computed by `add_message`
(news_analyzer.py:84). -/
def msgTypeOf (m : MessageData) : String :=
  pyLower (pyOrStr m.message_type "unknown")

/-! ### Concrete instances used for counterexamples and witnesses -/

/-- An environment whose collaborators are all unavailable (every API call
fails) and whose email dispatch succeeds. -/
def envNull : Env where
  summarizeResp := fun _ _ => none
  volatilityResp := fun _ => none
  jsonLoads := fun _ => none
  sendEmailResult := some true

/-- A sample channel-typed message. -/
def sampleChannelMsg : MessageData :=
  ⟨some "CryptoNews", some "btc", some "2026-01-01", some "channel"⟩

/-- A sample message whose `message_type` is neither channel nor group. -/
def sampleOtherMsg : MessageData :=
  ⟨some "CryptoNews", some "btc", some "2026-01-01", some "bot"⟩

/-- Analyzer state with channel summary interval 1 (a fresh instance built by
`__init__` with `summary_interval_channel = 1`). -/
def chanInterval1State : NewsAnalyzer :=
  NewsAnalyzer.init "qwen-plus-latest" 1000 1000 1 1000 100 500

/-- Analyzer state with analysis interval 1 (a fresh instance built by
`__init__` with `analysis_interval = 1`). -/
def analysisInterval1State : NewsAnalyzer :=
  NewsAnalyzer.init "qwen-plus-latest" 1000 1 50 1000 100 500

/-- A fresh analyzer with the repository's default configuration
(news/processor.py / settings: buffer 1000, analysis interval 1000, channel
summary interval 50, group summary interval 1000). -/
def defaultAnalyzerState : NewsAnalyzer :=
  NewsAnalyzer.init "qwen-plus-latest" 1000 1000 50 1000 100 500

/-- An environment whose Combined-Assessment collaborator answers with the
text `[1]`: valid JSON (`json.loads` yields the list `[1]`) that violates the
required response schema (it is not even a JSON object). -/
def envJsonList : Env where
  summarizeResp := fun _ _ => none
  volatilityResp := fun _ => some "[1]"
  jsonLoads := fun s => if s = "[1]" then some (.arr [.num 1]) else none
  sendEmailResult := some true

/-- An environment whose Combined-Assessment collaborator answers with text
that is not valid JSON (every `json.loads` attempt fails). -/
def envBadJson : Env where
  summarizeResp := fun _ _ => none
  volatilityResp := fun _ => some "oops"
  jsonLoads := fun _ => none
  sendEmailResult := some true

/-- A well-formed Combined-Assessment response value of the required shape. -/
def validVolatilityJson : JsonValue :=
  .obj [("volatility_increased", .bool true),
    ("activity_increased", .bool false),
    ("summary", .str "volume spike"),
    ("hot_topics", .arr [.str "btc"]),
    ("confidence", .num (7 / 10))]

/-- An environment whose Combined-Assessment collaborator answers with a
valid, truthy response (`volatility_increased = true`) and whose email
dispatch succeeds. -/
def envValidAlert : Env where
  summarizeResp := fun _ _ => none
  volatilityResp := fun _ => some "resp"
  jsonLoads := fun s => if s = "resp" then some validVolatilityJson else none
  sendEmailResult := some true

/-- An analyzer state holding one buffered message, with analysis interval 1
and the global counter already past the analysis threshold; used to exercise
`analyze_messages` and `analysisStep` directly. -/
def bufferedState : NewsAnalyzer :=
  { analysisInterval1State with
      message_buffer := [sampleChannelMsg]
      message_count := 1 }

/-! ## Theorems -/

/-! ### Reconnect backoff (claim C5) -/

theorem socketLoopForcedFailure_eq (base cap : Int) (maxA : Nat) :
    ∀ k attempts, maxA - attempts = k →
      socketLoopForcedFailure base cap maxA attempts =
        ((List.range' (attempts + 1) k).map
            (fun n => min (base * 2 ^ (n - 1)) cap)).flatMap
          (fun d => [.connectAttempt, .connectionLost, .sleep d]) ++
        [.connectAttempt, .connectionLost, .giveUp] := by
  intro k
  induction k with
  | zero =>
      intro attempts h
      rw [socketLoopForcedFailure]
      have hgt : attempts + 1 > maxA := by omega
      simp [hgt]
  | succ k ih =>
      intro attempts h
      rw [socketLoopForcedFailure]
      have hgt : ¬ (attempts + 1 > maxA) := by omega
      simp only [hgt, dite_false, dif_neg, not_false_iff]
      rw [ih (attempts + 1) (by omega)]
      simp [List.range'_succ]

theorem handleSocketForcedFailure_eq (base cap : Int) (maxA : Nat) :
    handleSocketForcedFailure base cap maxA =
      ((List.range' 1 maxA).map
          (fun n => min (base * 2 ^ (n - 1)) cap)).flatMap
        (fun d => [.connectAttempt, .connectionLost, .sleep d]) ++
      [.connectAttempt, .connectionLost, .giveUp] :=
  socketLoopForcedFailure_eq base cap maxA maxA 0 (by omega)

/-- C5: under forced repeated connection failure, the reconnect delay before
reconnection attempt `n` is `min(base * 2 ^ (n - 1), cap)` for
`n = 1 .. maxA`; the loop makes exactly `maxA + 1` connection attempts in
total (the initial one plus `maxA` reconnections) and then gives up: the
trace ends with the give-up event and contains no further connection
attempt.  Instantiated at the repository's constants
(`RECONNECT_DELAY = 5`, `MAX_RECONNECT_DELAY = 60`,
`MAX_RECONNECT_ATTEMPTS = 5`) the delays are `[5, 10, 20, 40, 60]`. -/
theorem backoff_delays_and_giveup (base cap : Int) (maxA : Nat) :
    delaysOf (handleSocketForcedFailure base cap maxA) =
      (List.range' 1 maxA).map (fun n => min (base * 2 ^ (n - 1)) cap) ∧
    attemptCount (handleSocketForcedFailure base cap maxA) = maxA + 1 ∧
    (handleSocketForcedFailure base cap maxA).getLast? = some .giveUp ∧
    delaysOf
        (handleSocketForcedFailure RECONNECT_DELAY MAX_RECONNECT_DELAY
          MAX_RECONNECT_ATTEMPTS) =
      [5, 10, 20, 40, 60] := by
  refine ⟨?_, ?_, ?_, by rw [handleSocketForcedFailure_eq]; decide⟩
  · rw [handleSocketForcedFailure_eq]
    induction (List.range' 1 maxA).map (fun n => min (base * 2 ^ (n - 1)) cap) with
    | nil => simp [delaysOf]
    | cons d ds ih =>
        simpa [delaysOf] using ih
  · rw [handleSocketForcedFailure_eq]
    have hlen : ((List.range' 1 maxA).map
        (fun n => min (base * 2 ^ (n - 1)) cap)).length = maxA := by simp
    generalize ((List.range' 1 maxA).map
        (fun n => min (base * 2 ^ (n - 1)) cap)) = ds at hlen
    subst hlen
    induction ds with
    | nil => simp [attemptCount]
    | cons d ds ih =>
        simp only [List.flatMap_cons, List.append_assoc]
        simp [attemptCount] at ih ⊢
        omega
  · rw [handleSocketForcedFailure_eq, List.getLast?_append]
    rfl

/-! ### Bus receive (claim C10) -/

/-- C10: `receive_message` yields `None` exactly for the `zmq.Again`
(no-message-queued, nonblocking) outcome; a received message whose payload
is not valid UTF-8 JSON makes the decoding exception propagate to the caller
(the result is an error, not a dropped message or an empty result). -/
theorem receive_message_none_iff_again (decodeUtf8 : List Nat → Option String)
    (jsonLoads : String → Option JsonValue) :
    (∀ outcome, receive_message decodeUtf8 jsonLoads outcome = .ok none ↔
      outcome = .again) ∧
    (∀ topicBytes messageBytes topic s,
      decodeUtf8 topicBytes = some topic →
      decodeUtf8 messageBytes = some s →
      jsonLoads s = none →
      receive_message decodeUtf8 jsonLoads (.frames [topicBytes, messageBytes]) =
        .error .jsonDecodeError) ∧
    (∀ topicBytes messageBytes topic,
      decodeUtf8 topicBytes = some topic →
      decodeUtf8 messageBytes = none →
      receive_message decodeUtf8 jsonLoads (.frames [topicBytes, messageBytes]) =
        .error .unicodeDecodeError) := by
  refine ⟨?_, ?_, ?_⟩
  · intro outcome
    constructor
    · intro h
      cases outcome with
      | again => rfl
      | frames fs =>
          rcases fs with _ | ⟨tb, _ | ⟨mb, _ | _⟩⟩
          · simp [receive_message] at h
          · simp [receive_message] at h
          · simp only [receive_message] at h
            cases hdt : decodeUtf8 tb with
            | none => simp only [hdt] at h; exact absurd h (by simp)
            | some topic =>
                cases hdm : decodeUtf8 mb with
                | none => simp only [hdt, hdm] at h; exact absurd h (by simp)
                | some s =>
                    cases hj : jsonLoads s <;>
                      simp only [hdt, hdm, hj] at h <;>
                        exact absurd h (by simp)
          · simp [receive_message] at h
    · intro h; subst h; rfl
  · intro tb mb topic s ht hm hj
    simp only [receive_message, ht, hm, hj]
  · intro tb mb topic ht hm
    simp only [receive_message, ht, hm]

/-- Witness for C10 at concrete inputs: with a decoder that accepts the empty
byte string and a JSON parser that always fails, the `again` outcome yields
`.ok none` and a two-frame message yields the propagated parse error. -/
theorem receive_message_none_iff_again_witness :
    (receive_message (fun _ => some "x") (fun _ => none) .again = .ok none) ∧
    receive_message (fun _ => some "x") (fun _ => none) (.frames [[], []]) =
      .error .jsonDecodeError :=
  ⟨((receive_message_none_iff_again (fun _ => some "x") (fun _ => none)).1
      .again).mpr rfl,
    (receive_message_none_iff_again (fun _ => some "x") (fun _ => none)).2.1
      [] [] "x" "x" rfl rfl rfl⟩

/-! ### Cache lemmas -/

section CacheLemmas

variable {K V : Type} [DecidableEq K] [DecidableEq V]

theorem dictGet_dictSet_self (d : List (CacheEntry K V)) (k : K) (v : V)
    (now : Int) : dictGet (dictSet d k v now) k = some ⟨k, v, now⟩ := by
  induction d with
  | nil => simp [dictGet, dictSet]
  | cons e rest ih =>
      by_cases he : e.key = k <;> simp [dictGet, dictSet, he, ih]

theorem dictGet_dictSet_ne (d : List (CacheEntry K V)) (k : K) (v : V)
    (now : Int) (k' : K) (h : k' ≠ k) :
    dictGet (dictSet d k v now) k' = dictGet d k' := by
  have hkk : ¬ (k = k') := fun hh => h hh.symm
  induction d with
  | nil => simp [dictGet, dictSet, hkk]
  | cons e rest ih =>
      by_cases he : e.key = k
      · subst he
        simp [dictGet, dictSet, hkk]
      · by_cases he' : e.key = k' <;>
          simp [dictGet, dictSet, he, he', ih, h, Ne.symm h]

theorem dictGet_eq_none_iff (d : List (CacheEntry K V)) (k : K) :
    dictGet d k = none ↔ ∀ e ∈ d, e.key ≠ k := by
  induction d with
  | nil => simp [dictGet]
  | cons e rest ih =>
      by_cases he : e.key = k <;> simp [dictGet, he, ih]

theorem dictGet_of_mem (d : List (CacheEntry K V)) (e : CacheEntry K V)
    (hnd : keysNodup d) (he : e ∈ d) : dictGet d e.key = some e := by
  induction d with
  | nil => simp at he
  | cons a rest ih =>
      simp only [keysNodup, List.map_cons, List.nodup_cons] at hnd
      rcases List.mem_cons.mp he with h | h
      · subst h
        simp [dictGet]
      · have hak : a.key ≠ e.key := by
          intro hh
          exact hnd.1 (hh ▸ List.mem_map_of_mem (fun x => x.key) h)
        simp only [dictGet, hak, if_false, ite_false]
        exact ih hnd.2 h

theorem dictSet_of_get_none (d : List (CacheEntry K V)) (k : K) (v : V)
    (now : Int) (h : dictGet d k = none) :
    dictSet d k v now = d ++ [⟨k, v, now⟩] := by
  induction d with
  | nil => simp [dictSet]
  | cons e rest ih =>
      rw [dictGet_eq_none_iff] at h
      have he : e.key ≠ k := h e (List.mem_cons_self e rest)
      have hrest : dictGet rest k = none := by
        rw [dictGet_eq_none_iff]
        exact fun x hx => h x (List.mem_cons_of_mem e hx)
      simp [dictSet, he, ih hrest]

theorem length_dictSet_of_get_some (d : List (CacheEntry K V)) (k : K) (v : V)
    (now : Int) (h : (dictGet d k).isSome) :
    (dictSet d k v now).length = d.length := by
  induction d with
  | nil => simp [dictGet] at h
  | cons e rest ih =>
      by_cases he : e.key = k <;> simp [dictGet, dictSet, he] at h ⊢
      · exact ih h

theorem minAccTs_mem (a : CacheEntry K V) (l : List (CacheEntry K V)) :
    minAccTs a l ∈ a :: l := by
  induction l generalizing a with
  | nil => simp [minAccTs]
  | cons e rest ih =>
      have step : minAccTs a (e :: rest) =
          minAccTs (if e.ts < a.ts then e else a) rest := rfl
      rw [step]
      have := ih (if e.ts < a.ts then e else a)
      rcases List.mem_cons.mp this with h | h
      · rw [h]
        split <;> simp
      · simp [h]

theorem minAccTs_le (a : CacheEntry K V) (l : List (CacheEntry K V)) :
    ∀ x ∈ a :: l, (minAccTs a l).ts ≤ x.ts := by
  induction l generalizing a with
  | nil =>
      intro x hx
      simp only [List.mem_singleton, List.mem_cons, List.not_mem_nil,
        or_false] at hx
      subst hx
      simp [minAccTs]
  | cons e rest ih =>
      intro x hx
      have step : minAccTs a (e :: rest) =
          minAccTs (if e.ts < a.ts then e else a) rest := rfl
      rw [step]
      have hmin : (minAccTs (if e.ts < a.ts then e else a) rest).ts ≤
          (if e.ts < a.ts then e else a).ts :=
        ih _ _ (List.mem_cons_self _ _)
      rcases List.mem_cons.mp hx with h1 | hx'
      · subst h1
        refine le_trans hmin ?_
        split
        · exact le_of_lt (by assumption)
        · exact le_rfl
      · rcases List.mem_cons.mp hx' with h2 | hx''
        · subst h2
          refine le_trans hmin ?_
          split
          · exact le_rfl
          · exact le_of_not_lt (by assumption)
        · exact ih _ _ (List.mem_cons_of_mem _ hx'')

theorem minAccTs_append (a : CacheEntry K V) (l : List (CacheEntry K V))
    (x : CacheEntry K V) :
    minAccTs a (l ++ [x]) =
      if x.ts < (minAccTs a l).ts then x else minAccTs a l := by
  simp [minAccTs, List.foldl_append]

theorem dictGet_dictDel_ne (d : List (CacheEntry K V)) (k k' : K)
    (h : k' ≠ k) : dictGet (dictDel d k) k' = dictGet d k' := by
  induction d with
  | nil => simp [dictGet, dictDel]
  | cons e rest ih =>
      by_cases he : e.key = k
      · have hne : ¬ (e.key = k') := by
          intro hh
          exact h (by rw [← hh, he])
        simp [dictGet, dictDel, he, hne, ih, h, Ne.symm h]
      · by_cases he' : e.key = k' <;>
          simp [dictGet, dictDel, he, he', ih, h, Ne.symm h]

theorem dictDel_of_get_none (d : List (CacheEntry K V)) (k : K)
    (h : dictGet d k = none) : dictDel d k = d := by
  induction d with
  | nil => rfl
  | cons e rest ih =>
      rw [dictGet_eq_none_iff] at h
      have he : e.key ≠ k := h e (List.mem_cons_self e rest)
      have hrest : dictGet rest k = none := by
        rw [dictGet_eq_none_iff]
        exact fun x hx => h x (List.mem_cons_of_mem e hx)
      simp [dictDel, he, ih hrest]

theorem length_dictDel_of_mem (d : List (CacheEntry K V))
    (e : CacheEntry K V) (hnd : keysNodup d) (he : e ∈ d) :
    (dictDel d e.key).length + 1 = d.length := by
  induction d with
  | nil => simp at he
  | cons a rest ih =>
      simp only [keysNodup, List.map_cons, List.nodup_cons] at hnd
      rcases List.mem_cons.mp he with h | h
      · subst h
        have hnone : dictGet rest e.key = none := by
          rw [dictGet_eq_none_iff]
          intro x hx hkey
          exact hnd.1 (hkey ▸ List.mem_map_of_mem (fun y => y.key) hx)
        simp [dictDel, dictDel_of_get_none rest e.key hnone]
      · have hak : a.key ≠ e.key := by
          intro hh
          exact hnd.1 (hh ▸ List.mem_map_of_mem (fun x => x.key) h)
        simp only [dictDel, hak, if_false, ite_false, List.length_cons]
        rw [← ih hnd.2 h]

theorem mem_keys_dictSet (d : List (CacheEntry K V)) (k : K) (v : V)
    (now : Int) (k0 : K) (h : k0 ∈ (dictSet d k v now).map (·.key)) :
    k0 = k ∨ k0 ∈ d.map (·.key) := by
  induction d with
  | nil =>
      simp [dictSet] at h
      simp [h]
  | cons e rest ih =>
      by_cases he : e.key = k
      · simp only [dictSet, he, if_pos rfl, ite_true, List.map_cons,
          List.mem_cons] at h
        rcases h with h | h
        · exact .inl h
        · exact .inr (by simp [h])
      · simp only [dictSet, he, if_false, ite_false, List.map_cons,
          List.mem_cons] at h
        rcases h with h | h
        · exact .inr (by simp [h])
        · rcases ih h with h' | h'
          · exact .inl h'
          · exact .inr (by simp [h'])

theorem keysNodup_dictSet (d : List (CacheEntry K V)) (k : K) (v : V)
    (now : Int) (h : keysNodup d) : keysNodup (dictSet d k v now) := by
  induction d with
  | nil => simp [dictSet, keysNodup]
  | cons e rest ih =>
      by_cases he : e.key = k
      · subst he
        simp only [keysNodup, dictSet, if_pos rfl, ite_true, List.map_cons,
          List.nodup_cons] at h ⊢
        exact h
      · simp only [keysNodup, dictSet, he, if_false, ite_false, List.map_cons,
          List.nodup_cons] at h ⊢
        refine ⟨?_, ih h.2⟩
        intro hmem
        rcases mem_keys_dictSet rest k v now e.key hmem with h' | h'
        · exact he h'
        · exact h.1 h'

theorem entry_unique (d : List (CacheEntry K V)) (x e : CacheEntry K V)
    (hnd : keysNodup d) (hx : x ∈ d) (he : e ∈ d) (hk : x.key = e.key) :
    x = e := by
  have h1 := dictGet_of_mem d x hnd hx
  have h2 := dictGet_of_mem d e hnd he
  rw [hk, h2] at h1
  exact (Option.some_injective _ h1).symm

theorem dictDel_eq_filter (d : List (CacheEntry K V)) (k : K) :
    dictDel d k = d.filter (fun e => decide (e.key ≠ k)) := by
  induction d with
  | nil => rfl
  | cons e rest ih =>
      by_cases he : e.key = k <;> simp [dictDel, List.filter_cons, he, ih]

theorem delItem_data (c : MonitoredCache K V) (k : K) :
    (c.delItem k).1.data = dictDel c.data k := by
  unfold MonitoredCache.delItem
  cases h : dictGet c.data k with
  | none => simp [dictDel_of_get_none c.data k h]
  | some e => simp

theorem delItem_config (c : MonitoredCache K V) (k : K) :
    (c.delItem k).1.maxsize = c.maxsize ∧ (c.delItem k).1.ttl = c.ttl := by
  unfold MonitoredCache.delItem
  cases h : dictGet c.data k with
  | none => simp
  | some e => simp

theorem delItem_events (c : MonitoredCache K V) (k : K) :
    (c.delItem k).2 =
      ((dictGet c.data k).map
        (fun e => CacheEvent.expired k e.value)).toList := by
  unfold MonitoredCache.delItem
  cases h : dictGet c.data k with
  | none => simp
  | some e => simp

theorem keysNodup_dictDel (d : List (CacheEntry K V)) (k : K)
    (h : keysNodup d) : keysNodup (dictDel d k) := by
  rw [dictDel_eq_filter]
  exact List.Nodup.sublist (List.Sublist.map _ (List.filter_sublist d)) h

theorem foldl_delItem_spec (ks : List K) :
    ∀ (c : MonitoredCache K V) (acc : List (CacheEvent K V)), ks.Nodup →
      (ks.foldl (fun a k => ((a.1.delItem k).1, a.2 ++ (a.1.delItem k).2))
          (c, acc)).1.data =
        c.data.filter (fun e => decide (e.key ∉ ks)) ∧
      (ks.foldl (fun a k => ((a.1.delItem k).1, a.2 ++ (a.1.delItem k).2))
          (c, acc)).2 =
        acc ++ ks.filterMap
          (fun k0 => (dictGet c.data k0).map
            (fun e => CacheEvent.expired k0 e.value)) := by
  induction ks with
  | nil =>
      intro c acc _
      simp
  | cons k ks ih =>
      intro c acc hnd
      rw [List.nodup_cons] at hnd
      simp only [List.foldl_cons]
      have hrec := ih (c.delItem k).1 (acc ++ (c.delItem k).2) hnd.2
      refine ⟨?_, ?_⟩
      · rw [hrec.1, delItem_data, dictDel_eq_filter, List.filter_filter]
        refine List.filter_congr ?_
        intro e _
        by_cases hk : e.key = k
        · simp [hk, hnd.1]
        · by_cases hks : e.key ∈ ks <;> simp [hk, hks, Ne.symm, fun hh => hk hh]
      · rw [hrec.2, delItem_events]
        have hcongr : ks.filterMap
            (fun k0 => (dictGet (c.delItem k).1.data k0).map
              (fun e => CacheEvent.expired k0 e.value)) =
            ks.filterMap
            (fun k0 => (dictGet c.data k0).map
              (fun e => CacheEvent.expired k0 e.value)) := by
          refine List.filterMap_congr ?_
          intro k0 hk0
          rw [delItem_data, dictGet_dictDel_ne c.data k k0
            (fun hh => hnd.1 (hh ▸ hk0))]
        rw [hcongr, List.filterMap_cons]
        cases h : dictGet c.data k with
        | none => simp
        | some e => simp

theorem dictGet_append_of_none (l l' : List (CacheEntry K V)) (k : K)
    (h : dictGet l k = none) : dictGet (l ++ l') k = dictGet l' k := by
  induction l with
  | nil => rfl
  | cons e rest ih =>
      rw [dictGet_eq_none_iff] at h
      have he : e.key ≠ k := h e (List.mem_cons_self e rest)
      have hrest : dictGet rest k = none := by
        rw [dictGet_eq_none_iff]
        exact fun x hx => h x (List.mem_cons_of_mem e hx)
      simp [dictGet, he, ih hrest]

theorem setItem_same_value (c : MonitoredCache K V) (k : K) (v : V)
    (now : Int) (e : CacheEntry K V) (hget : dictGet c.data k = some e)
    (hval : e.value = v) :
    c.setItem k v now =
      .done { c with data := dictSet c.data k v now } [] := by
  simp [MonitoredCache.setItem, hget, hval]

theorem setItem_overwrite (c : MonitoredCache K V) (k : K) (v : V)
    (now : Int) (e : CacheEntry K V) (hget : dictGet c.data k = some e)
    (hval : ¬ (e.value = v))
    (hsz : ¬ ((dictSet c.data k v now).length > c.maxsize)) :
    c.setItem k v now =
      .done { c with data := dictSet c.data k v now } [] := by
  simp [MonitoredCache.setItem, hget, hval, hsz]

theorem setItem_overwrite_overflow_stuck (c : MonitoredCache K V) (k : K)
    (v : V) (now : Int) (e : CacheEntry K V)
    (hget : dictGet c.data k = some e) (hval : ¬ (e.value = v))
    (hsz : (dictSet c.data k v now).length > c.maxsize) :
    c.setItem k v now = .stuck (dictSet c.data k v now) [] := by
  simp [MonitoredCache.setItem, hget, hval, hsz]

theorem setItem_fresh_noevict (c : MonitoredCache K V) (k : K) (v : V)
    (now : Int) (hget : dictGet c.data k = none)
    (hsz : ¬ ((dictSet c.data k v now).length > c.maxsize)) :
    c.setItem k v now =
      .done { c with data := dictSet c.data k v now } [.inserted k v] := by
  simp [MonitoredCache.setItem, hget, hsz]

theorem setItem_fresh_overflow_stuck (c : MonitoredCache K V) (k : K)
    (v : V) (now : Int) (hget : dictGet c.data k = none)
    (hsz : (dictSet c.data k v now).length > c.maxsize) :
    c.setItem k v now =
      .stuck (dictSet c.data k v now) [.inserted k v] := by
  simp [MonitoredCache.setItem, hget, hsz]

/-- C6 (code bug): when inserting a fresh key makes the dict exceed `maxsize`,
`__setitem__` never completes.  Still holding the non-reentrant
`threading.Lock` it acquired at processor.py:27, it calls
`self.__delitem__(oldest_key)` (processor.py:40), whose `with self._lock:`
(processor.py:52) blocks forever on that same lock.  The call's outcome is
therefore `stuck`, with the dict at the moment of blocking being the old dict
plus the new entry — every previous entry, the oldest included, still present
and the size bound exceeded — and with the insert log as the only event
emitted: no "缓存过期" eviction event is ever produced, so the claimed
oldest-entry eviction never happens. -/
theorem setItem_overflow_deadlocks_no_eviction (c : MonitoredCache K V)
    (k : K) (v : V) (now : Int) (hget : dictGet c.data k = none)
    (hfull : c.maxsize ≤ c.data.length) :
    c.setItem k v now =
      SetOutcome.stuck (c.data ++ [⟨k, v, now⟩]) [CacheEvent.inserted k v] ∧
    c.maxsize < (c.data ++ [(⟨k, v, now⟩ : CacheEntry K V)]).length := by
  have hd : dictSet c.data k v now = c.data ++ [⟨k, v, now⟩] :=
    dictSet_of_get_none _ _ _ _ hget
  have hexc : (dictSet c.data k v now).length > c.maxsize := by
    rw [hd]
    simp only [List.length_append, List.length_singleton]
    omega
  refine ⟨?_, ?_⟩
  · rw [setItem_fresh_overflow_stuck c k v now hget hexc, hd]
  · simp only [List.length_append, List.length_singleton]
    omega

/-- Witness for C6 at a concrete input: inserting the fresh key 2 into a full
cache of `maxsize` 2 blocks forever with all three entries still present and
only the insert log emitted — nothing is evicted. -/
theorem setItem_overflow_deadlocks_no_eviction_witness :
    (⟨2, 5, [⟨0, 10, 50⟩, ⟨1, 20, 60⟩]⟩ :
        MonitoredCache Nat Nat).setItem 2 30 100 =
      SetOutcome.stuck [⟨0, 10, 50⟩, ⟨1, 20, 60⟩, ⟨2, 30, 100⟩]
        [CacheEvent.inserted 2 30] ∧
    2 < ([⟨0, 10, 50⟩, ⟨1, 20, 60⟩, ⟨2, 30, 100⟩] :
        List (CacheEntry Nat Nat)).length :=
  setItem_overflow_deadlocks_no_eviction
    (⟨2, 5, [⟨0, 10, 50⟩, ⟨1, 20, 60⟩]⟩ : MonitoredCache Nat Nat)
    2 30 100 (by decide) (by decide)

/-- C8 (code bug): every COMPLETING `set(k, v)` call behaves as the claim
says — the "缓存新增" new-key event is emitted iff `k` was absent at that
moment, overwriting an existing key with an unchanged value stores
`(value, now)` silently, and the entry stored under `k` in the resulting
state carries the current time `now`.  But the claim's "in all cases" clause
fails: inserting a fresh key into a full cache never completes — the call
emits the new-key log and stores `(value, now)`, then blocks forever in
`__delitem__`'s second acquisition of the non-reentrant lock
(processor.py:40/52) — so for that case there is no post-`set` state whose
stored timestamp could be inspected at all. -/
theorem setItem_log_iff_new_but_full_insert_never_returns
    (c : MonitoredCache K V) (k : K) (v : V) (now : Int) :
    (∀ c1 evs, c.setItem k v now = .done c1 evs →
      ((CacheEvent.inserted k v ∈ evs ↔ dictGet c.data k = none) ∧
        dictGet c1.data k = some ⟨k, v, now⟩)) ∧
    (∀ e, dictGet c.data k = some e → e.value = v →
      c.setItem k v now =
        .done { c with data := dictSet c.data k v now } []) ∧
    (dictGet c.data k = none → c.maxsize ≤ c.data.length →
      c.setItem k v now =
        .stuck (dictSet c.data k v now) [.inserted k v]) := by
  refine ⟨?_, ?_, ?_⟩
  · intro c1 evs hdone
    by_cases hnone : dictGet c.data k = none
    · by_cases hexc : (dictSet c.data k v now).length > c.maxsize
      · rw [setItem_fresh_overflow_stuck c k v now hnone hexc] at hdone
        exact absurd hdone (by simp)
      · rw [setItem_fresh_noevict c k v now hnone hexc] at hdone
        injection hdone with hc1 hevs
        subst hc1
        subst hevs
        exact ⟨by simp [hnone],
          by simpa using dictGet_dictSet_self c.data k v now⟩
    · obtain ⟨e, hget⟩ : ∃ e, dictGet c.data k = some e := by
        cases h : dictGet c.data k with
        | none => exact absurd h hnone
        | some e => exact ⟨e, rfl⟩
      by_cases hval : e.value = v
      · rw [setItem_same_value c k v now e hget hval] at hdone
        injection hdone with hc1 hevs
        subst hc1
        subst hevs
        exact ⟨by simp [hnone],
          by simpa using dictGet_dictSet_self c.data k v now⟩
      · by_cases hexc : (dictSet c.data k v now).length > c.maxsize
        · rw [setItem_overwrite_overflow_stuck c k v now e hget hval hexc]
            at hdone
          exact absurd hdone (by simp)
        · rw [setItem_overwrite c k v now e hget hval hexc] at hdone
          injection hdone with hc1 hevs
          subst hc1
          subst hevs
          exact ⟨by simp [hnone],
            by simpa using dictGet_dictSet_self c.data k v now⟩
  · intro e hget hval
    exact setItem_same_value c k v now e hget hval
  · intro hnone hfull
    have hd : dictSet c.data k v now = c.data ++ [⟨k, v, now⟩] :=
      dictSet_of_get_none _ _ _ _ hnone
    have hexc : (dictSet c.data k v now).length > c.maxsize := by
      rw [hd]
      simp only [List.length_append, List.length_singleton]
      omega
    exact setItem_fresh_overflow_stuck c k v now hnone hexc

/-- Witness for C8 at a concrete input: inserting the fresh key 1 into a full
cache of `maxsize` 1 emits the new-key log and then blocks forever, so the
call never produces a post-`set` state. -/
theorem setItem_log_iff_new_but_full_insert_never_returns_witness :
    (⟨1, 5, [⟨0, 10, 50⟩]⟩ : MonitoredCache Nat Nat).setItem 1 7 100 =
      SetOutcome.stuck [⟨0, 10, 50⟩, ⟨1, 7, 100⟩] [CacheEvent.inserted 1 7] :=
  (setItem_log_iff_new_but_full_insert_never_returns
      (⟨1, 5, [⟨0, 10, 50⟩]⟩ : MonitoredCache Nat Nat) 1 7 100).2.2
    (by decide) (by decide)

/-- C7: after one pass of the background sweep at time `now`, the cache holds
exactly the entries whose age is within the TTL; every entry whose age
strictly exceeds the TTL has been removed, logged as expired, and is absent
from subsequent `get` calls. -/
theorem sweep_expires_aged_entries (c : MonitoredCache K V) (now : Int)
    (hnd : keysNodup c.data) :
    (c.sweep now).1.data =
      c.data.filter (fun e => decide (now - e.ts ≤ c.ttl)) ∧
    ∀ e ∈ c.data, now - e.ts > c.ttl →
      (c.sweep now).1.get e.key = none ∧
      CacheEvent.expired e.key e.value ∈ (c.sweep now).2 := by
  have hknd : ((c.data.filter (fun e => now - e.ts > c.ttl)).map
      (·.key)).Nodup :=
    List.Nodup.sublist (List.Sublist.map _ (List.filter_sublist _)) hnd
  have hspec := foldl_delItem_spec
    ((c.data.filter (fun e => now - e.ts > c.ttl)).map (·.key)) c [] hknd
  have hkey_iff : ∀ e ∈ c.data,
      (e.key ∈ (c.data.filter (fun e => now - e.ts > c.ttl)).map (·.key) ↔
        now - e.ts > c.ttl) := by
    intro e he
    constructor
    · intro hk
      rcases List.mem_map.mp hk with ⟨x, hx, hxe⟩
      have hx1 := List.mem_of_mem_filter hx
      have hx2 := List.of_mem_filter hx
      have hxe' : x = e := entry_unique c.data x e hnd hx1 he hxe
      subst hxe'
      simpa using hx2
    · intro hc
      exact List.mem_map.mpr ⟨e, List.mem_filter.mpr ⟨he, by simpa using hc⟩,
        rfl⟩
  have hsw : c.sweep now =
      List.foldl (fun a k => ((a.1.delItem k).1, a.2 ++ (a.1.delItem k).2))
        (c, []) ((c.data.filter (fun e => now - e.ts > c.ttl)).map (·.key)) :=
    rfl
  have hdata : (c.sweep now).1.data =
      c.data.filter (fun e => decide (now - e.ts ≤ c.ttl)) := by
    rw [hsw, hspec.1]
    refine List.filter_congr ?_
    intro e he
    by_cases hc : now - e.ts ≤ c.ttl
    · have : ¬ (now - e.ts > c.ttl) := not_lt.mpr hc
      simp [hc, (hkey_iff e he).not.mpr this]
    · have : now - e.ts > c.ttl := lt_of_not_le hc
      simp [hc, (hkey_iff e he).mpr this]
  refine ⟨hdata, ?_⟩
  intro e he hexp
  have hkmem : e.key ∈ (c.data.filter (fun e => now - e.ts > c.ttl)).map
      (·.key) := (hkey_iff e he).mpr hexp
  constructor
  · unfold MonitoredCache.get
    rw [hdata]
    have : dictGet (c.data.filter (fun e => decide (now - e.ts ≤ c.ttl)))
        e.key = none := by
      rw [dictGet_eq_none_iff]
      intro x hx hxe
      have hx1 := List.mem_of_mem_filter hx
      have hx2 := List.of_mem_filter hx
      have hxe' : x = e := entry_unique c.data x e hnd hx1 he hxe
      subst hxe'
      simp at hx2
      omega
    rw [this]
    rfl
  · rw [hsw, hspec.2]
    refine List.mem_filterMap.mpr ⟨e.key, hkmem, ?_⟩
    rw [dictGet_of_mem c.data e hnd he]
    rfl

/-- Witness for C7 at a concrete input: with TTL 5 at time 100, the entry
written at time 50 is swept out and unreadable, while the entry written at
time 95 survives. -/
theorem sweep_expires_aged_entries_witness :
    ((⟨10, 5, [⟨0, 10, 50⟩, ⟨1, 20, 95⟩]⟩ :
        MonitoredCache Nat Nat).sweep 100).1.get 0 = none ∧
    CacheEvent.expired 0 10 ∈
      ((⟨10, 5, [⟨0, 10, 50⟩, ⟨1, 20, 95⟩]⟩ :
        MonitoredCache Nat Nat).sweep 100).2 :=
  (sweep_expires_aged_entries
    (⟨10, 5, [⟨0, 10, 50⟩, ⟨1, 20, 95⟩]⟩ : MonitoredCache Nat Nat) 100
    (by unfold keysNodup; decide)).2 ⟨0, 10, 50⟩ (by decide) (by decide)

end CacheLemmas

/-! ### Trigger-engine lemmas -/

theorem summarize_countP (st : NewsAnalyzer) (env : Env) (site : SummarySite)
    (n : Nat) (t : Option String) (p : AnalyzerEvent → Bool)
    (hwarn : ∀ s, p (.logWarning s) = false)
    (hsum : ∀ mt nn, p (.summarizeCall site mt nn) = false) :
    (st.summarize_recent_messages env site n t).2.countP p = 0 := by
  unfold NewsAnalyzer.summarize_recent_messages
  split
  · simp [List.countP_cons, hwarn]
  · simp [List.countP_cons, hsum]

theorem amv_countP (st : NewsAnalyzer) (env : Env) (n : Nat)
    (p : AnalyzerEvent → Bool)
    (hwarn : ∀ s, p (.logWarning s) = false)
    (herr : ∀ s, p (.logError s) = false)
    (hvol : ∀ nn, p (.volatilityCall nn) = false) :
    (st.analyze_market_volatility env n).2.countP p = 0 := by
  unfold NewsAnalyzer.analyze_market_volatility
  split
  · simp [List.countP_cons, hwarn]
  · dsimp only
    cases hvr : env.volatilityResp (pySliceLast st.message_buffer n) with
    | none => simp [List.countP_cons, hvol]
    | some response =>
        by_cases hresp : response = ""
        · simp [hresp, List.countP_cons, hvol]
        · simp only [hresp, if_false, if_neg hresp]
          cases hj : env.jsonLoads (stripCodeFences response) with
          | some result => simp [List.countP_cons, hvol]
          | none => simp [List.countP_cons, List.countP_append, hvol, herr]

theorem send_alert_countP (st : NewsAnalyzer) (env : Env) (v : JsonValue)
    (cs gs : Option String) (p : AnalyzerEvent → Bool) (evs : List AnalyzerEvent)
    (hok : st.send_alert_email env v cs gs = .ok evs)
    (hmail : ∀ r, p (.sendEmailCall r) = false)
    (herr : ∀ s, p (.logError s) = false)
    (hsucc : ∀ s, p (.logSuccess s) = false) :
    evs.countP p = 0 := by
  unfold NewsAnalyzer.send_alert_email at hok
  cases hr : env.sendEmailResult with
  | none =>
      rw [hr] at hok
      repeat' split at hok
      all_goals try simp_all [List.countP_cons, hmail, herr, hsucc]
      all_goals (subst hok; simp [hmail, herr, hsucc])
  | some b =>
      rw [hr] at hok
      cases b
      all_goals repeat' split at hok
      all_goals try simp_all [List.countP_cons, hmail, herr, hsucc]
      all_goals (subst hok; simp [hmail, herr, hsucc])

theorem analyze_messages_countP (st : NewsAnalyzer) (env : Env)
    (p : AnalyzerEvent → Bool)
    (hinfo : ∀ s, p (.logInfo s) = false)
    (hwarn : ∀ s, p (.logWarning s) = false)
    (herr : ∀ s, p (.logError s) = false)
    (hsucc : ∀ s, p (.logSuccess s) = false)
    (hvol : ∀ nn, p (.volatilityCall nn) = false)
    (hsumc : ∀ mt nn, p (.summarizeCall .analysisChannel mt nn) = false)
    (hsumg : ∀ mt nn, p (.summarizeCall .analysisGroup mt nn) = false)
    (hmail : ∀ r, p (.sendEmailCall r) = false) :
    (st.analyze_messages env).1.countP p = 0 := by
  have hamv := amv_countP st env st.volatility_message_count p hwarn herr hvol
  have hsc := summarize_countP st env .analysisChannel
    st.summary_message_count (some "channel") p hwarn hsumc
  have hsg := summarize_countP st env .analysisGroup
    st.summary_message_count (some "group") p hwarn hsumg
  unfold NewsAnalyzer.analyze_messages
  rcases heq : st.analyze_market_volatility env st.volatility_message_count
    with ⟨vres, ev1⟩
  rw [heq] at hamv
  simp only at hamv
  cases vres with
  | none =>
      simp [List.countP_append, List.countP_cons, hinfo, hwarn, hamv]
  | some v =>
      by_cases ht : pyTruthy v
      · simp only [ht, if_true, ite_true]
        cases hg : v.pyGet ("volatility_increased") with
        | error e =>
            simp [List.countP_append, List.countP_cons, hinfo, hamv, hsc, hsg]
        | ok vi =>
            simp only [hg]
            by_cases hvi : pyTruthy vi
            · simp only [hvi, if_true, ite_true]
              cases hs : st.send_alert_email env v
                  (st.summarize_recent_messages env .analysisChannel
                    st.summary_message_count (some "channel")).1
                  (st.summarize_recent_messages env .analysisGroup
                    st.summary_message_count (some "group")).1 with
              | error e =>
                  simp [hs, List.countP_append, List.countP_cons, hinfo,
                    hamv, hsc, hsg]
              | ok ev5 =>
                  have h5 := send_alert_countP st env v _ _ p ev5 hs hmail
                    herr hsucc
                  simp [hs, List.countP_append, List.countP_cons, hinfo,
                    hamv, hsc, hsg, h5]
            · simp only [hvi, if_false, ite_false]
              cases hg2 : v.pyGet ("activity_increased") with
              | error e =>
                  simp [hg2, List.countP_append, List.countP_cons, hinfo,
                    hamv, hsc, hsg]
              | ok ai =>
                  simp only [hg2]
                  by_cases hai : pyTruthy ai
                  · simp only [hai, if_true, ite_true]
                    cases hs : st.send_alert_email env v
                        (st.summarize_recent_messages env .analysisChannel
                          st.summary_message_count (some "channel")).1
                        (st.summarize_recent_messages env .analysisGroup
                          st.summary_message_count (some "group")).1 with
                    | error e =>
                        simp [hs, List.countP_append, List.countP_cons,
                          hinfo, hamv, hsc, hsg]
                    | ok ev5 =>
                        have h5 := send_alert_countP st env v _ _ p ev5 hs
                          hmail herr hsucc
                        simp [hs, List.countP_append, List.countP_cons,
                          hinfo, hamv, hsc, hsg, h5]
                  · simp [hai, List.countP_append, List.countP_cons, hinfo,
                      hamv, hsc, hsg]
      · simp [ht, List.countP_append, List.countP_cons, hinfo, hwarn, hamv]

theorem dequeAppend_length {α : Type} (buf : List α) (maxlen : Nat) (x : α) :
    (dequeAppend buf maxlen x).length = min (buf.length + 1) maxlen := by
  simp [dequeAppend]
  omega

theorem dequeAppend_isEmpty {α : Type} (buf : List α) (maxlen : Nat) (x : α)
    (h : 1 ≤ maxlen) : (dequeAppend buf maxlen x).isEmpty = false := by
  have hl := dequeAppend_length buf maxlen x
  cases hd : dequeAppend buf maxlen x with
  | nil =>
      exfalso
      rw [hd] at hl
      simp at hl
      omega
  | cons a l => rfl

theorem dequeAppend_mem_last {α : Type} (buf : List α) (maxlen : Nat) (x : α)
    (h : 1 ≤ maxlen) : x ∈ dequeAppend buf maxlen x := by
  unfold dequeAppend
  have hle : (buf ++ [x]).length - maxlen ≤ buf.length := by simp; omega
  rw [List.drop_append_of_le_length hle]
  simp

theorem summarize_events_eq (st : NewsAnalyzer) (env : Env)
    (site : SummarySite) (n : Nat) (t : Option String)
    (hne : st.message_buffer.isEmpty = false) :
    (st.summarize_recent_messages env site n t).2 =
      [.summarizeCall site t n] := by
  unfold NewsAnalyzer.summarize_recent_messages
  simp [hne]

theorem analysisStep_preserves (st2 : NewsAnalyzer) (env : Env)
    (evCat : List AnalyzerEvent) :
    (st2.analysisStep env evCat).1.channel_message_count =
        st2.channel_message_count ∧
    (st2.analysisStep env evCat).1.last_channel_summary_count =
        st2.last_channel_summary_count ∧
    (st2.analysisStep env evCat).1.group_message_count =
        st2.group_message_count ∧
    (st2.analysisStep env evCat).1.last_group_summary_count =
        st2.last_group_summary_count ∧
    (st2.analysisStep env evCat).1.summary_interval_channel =
        st2.summary_interval_channel ∧
    (st2.analysisStep env evCat).1.summary_interval_group =
        st2.summary_interval_group ∧
    (st2.analysisStep env evCat).1.message_buffer_size =
        st2.message_buffer_size ∧
    (st2.analysisStep env evCat).1.analysis_interval = st2.analysis_interval ∧
    (st2.analysisStep env evCat).1.summary_message_count =
        st2.summary_message_count ∧
    (st2.analysisStep env evCat).1.volatility_message_count =
        st2.volatility_message_count ∧
    (st2.analysisStep env evCat).1.model = st2.model ∧
    (st2.analysisStep env evCat).1.message_buffer = st2.message_buffer ∧
    (st2.analysisStep env evCat).1.message_count = st2.message_count := by
  unfold NewsAnalyzer.analysisStep
  split
  · cases h2 : (st2.analyze_messages env).2 <;> simp [h2]
  · simp

theorem analysisStep_events_shape (st2 : NewsAnalyzer) (env : Env)
    (evCat : List AnalyzerEvent) :
    ∃ tail, (st2.analysisStep env evCat).2.1 = evCat ++ tail := by
  unfold NewsAnalyzer.analysisStep
  split
  · cases h2 : (st2.analyze_messages env).2 with
    | error e =>
        exact ⟨(st2.analyze_messages env).1, by simp [h2]⟩
    | ok u =>
        exact ⟨(st2.analyze_messages env).1 ++
          [.setLastAnalysisCount st2.message_count], by simp [h2]⟩
  · exact ⟨[], by simp⟩

theorem analysisStep_countP (st2 : NewsAnalyzer) (env : Env)
    (evCat : List AnalyzerEvent) (p : AnalyzerEvent → Bool)
    (hinfo : ∀ s, p (.logInfo s) = false)
    (hwarn : ∀ s, p (.logWarning s) = false)
    (herr : ∀ s, p (.logError s) = false)
    (hsucc : ∀ s, p (.logSuccess s) = false)
    (hvol : ∀ nn, p (.volatilityCall nn) = false)
    (hsumc : ∀ mt nn, p (.summarizeCall .analysisChannel mt nn) = false)
    (hsumg : ∀ mt nn, p (.summarizeCall .analysisGroup mt nn) = false)
    (hmail : ∀ r, p (.sendEmailCall r) = false)
    (hset : ∀ n, p (.setLastAnalysisCount n) = false) :
    (st2.analysisStep env evCat).2.1.countP p = evCat.countP p := by
  have h0 := analyze_messages_countP st2 env p hinfo hwarn herr hsucc hvol
    hsumc hsumg hmail
  unfold NewsAnalyzer.analysisStep
  split
  · cases h2 : (st2.analyze_messages env).2 <;>
      simp [h2, List.countP_append, List.countP_cons, h0, hset]
  · rfl

theorem add_message_channel_spec (st : NewsAnalyzer) (env : Env)
    (m : MessageData) (hbuf : 1 ≤ st.message_buffer_size) :
    ((st.add_message env m).2.1.countP isChannelTriggerCall =
      if msgTypeOf m = "channel" ∧
          st.channel_message_count + 1 - st.last_channel_summary_count ≥
            st.summary_interval_channel then 1 else 0) ∧
    ((st.add_message env m).1.channel_message_count =
      if msgTypeOf m = "channel" then st.channel_message_count + 1
      else st.channel_message_count) ∧
    ((st.add_message env m).1.last_channel_summary_count =
      if msgTypeOf m = "channel" ∧
          st.channel_message_count + 1 - st.last_channel_summary_count ≥
            st.summary_interval_channel then st.channel_message_count + 1
      else st.last_channel_summary_count) ∧
    (st.add_message env m).1.summary_interval_channel =
      st.summary_interval_channel ∧
    (st.add_message env m).1.message_buffer_size = st.message_buffer_size := by
  have hstep := fun (st2 : NewsAnalyzer) (evCat : List AnalyzerEvent) =>
    analysisStep_countP st2 env evCat isChannelTriggerCall
      (fun _ => rfl) (fun _ => rfl) (fun _ => rfl) (fun _ => rfl)
      (fun _ => rfl) (fun _ _ => rfl) (fun _ _ => rfl) (fun _ => rfl)
      (fun _ => rfl)
  have hpres := fun (st2 : NewsAnalyzer) (evCat : List AnalyzerEvent) =>
    analysisStep_preserves st2 env evCat
  have hne : (dequeAppend st.message_buffer st.message_buffer_size m).isEmpty
      = false := dequeAppend_isEmpty _ _ _ hbuf
  unfold NewsAnalyzer.add_message msgTypeOf
  by_cases hc : pyLower (pyOrStr m.message_type "unknown") = "channel"
  · simp only [hc, if_true, ite_true, if_pos]
    split
    · rename_i htr
      have h1 := summarize_events_eq
        ({ st with
            message_buffer :=
              dequeAppend st.message_buffer st.message_buffer_size m
            message_count := st.message_count + 1
            channel_message_count := st.channel_message_count + 1 })
        env .channelTrigger st.summary_message_count (some "channel") hne
      cases hsum : ({ st with
          message_buffer :=
            dequeAppend st.message_buffer st.message_buffer_size m
          message_count := st.message_count + 1
          channel_message_count :=
            st.channel_message_count + 1 }).summarize_recent_messages env
          .channelTrigger st.summary_message_count (some "channel") with
      | mk summary evs =>
          simp [hsum] at h1
          simp [hsum, h1, hstep, hpres, List.countP_cons, List.countP_append,
            hc, htr, isChannelTriggerCall]
          cases summary <;>
            simp [List.countP_cons, isChannelTriggerCall]
    · rename_i htr
      simp [hstep, hpres, hc, htr]
  · simp only [hc, if_false, ite_false]
    by_cases hg : pyLower (pyOrStr m.message_type "unknown") = "group"
    · simp only [hg, if_true, ite_true, if_pos]
      split
      · have h1 := summarize_events_eq
          ({ st with
              message_buffer :=
                dequeAppend st.message_buffer st.message_buffer_size m
              message_count := st.message_count + 1
              group_message_count := st.group_message_count + 1 })
          env .groupTrigger st.summary_message_count (some "group") hne
        cases hsum : ({ st with
            message_buffer :=
              dequeAppend st.message_buffer st.message_buffer_size m
            message_count := st.message_count + 1
            group_message_count :=
              st.group_message_count + 1 }).summarize_recent_messages env
            .groupTrigger st.summary_message_count (some "group") with
        | mk summary evs =>
            simp [hsum] at h1
            simp [hsum, h1, hstep, hpres, List.countP_cons,
              List.countP_append, hc]
            cases summary <;>
              simp [List.countP_cons, isChannelTriggerCall]
      · simp [hstep, hpres, hc]
    · simp [hg, hstep, hpres, hc]

theorem add_message_group_spec (st : NewsAnalyzer) (env : Env)
    (m : MessageData) (hbuf : 1 ≤ st.message_buffer_size) :
    ((st.add_message env m).2.1.countP isGroupTriggerCall =
      if msgTypeOf m = "group" ∧
          st.group_message_count + 1 - st.last_group_summary_count ≥
            st.summary_interval_group then 1 else 0) ∧
    ((st.add_message env m).1.group_message_count =
      if msgTypeOf m = "group" then st.group_message_count + 1
      else st.group_message_count) ∧
    ((st.add_message env m).1.last_group_summary_count =
      if msgTypeOf m = "group" ∧
          st.group_message_count + 1 - st.last_group_summary_count ≥
            st.summary_interval_group then st.group_message_count + 1
      else st.last_group_summary_count) ∧
    (st.add_message env m).1.summary_interval_group =
      st.summary_interval_group ∧
    (st.add_message env m).1.message_buffer_size = st.message_buffer_size := by
  have hstep := fun (st2 : NewsAnalyzer) (evCat : List AnalyzerEvent) =>
    analysisStep_countP st2 env evCat isGroupTriggerCall
      (fun _ => rfl) (fun _ => rfl) (fun _ => rfl) (fun _ => rfl)
      (fun _ => rfl) (fun _ _ => rfl) (fun _ _ => rfl) (fun _ => rfl)
      (fun _ => rfl)
  have hpres := fun (st2 : NewsAnalyzer) (evCat : List AnalyzerEvent) =>
    analysisStep_preserves st2 env evCat
  have hne : (dequeAppend st.message_buffer st.message_buffer_size m).isEmpty
      = false := dequeAppend_isEmpty _ _ _ hbuf
  unfold NewsAnalyzer.add_message msgTypeOf
  by_cases hc : pyLower (pyOrStr m.message_type "unknown") = "channel"
  · have hcg : ¬ (pyLower (pyOrStr m.message_type "unknown") = "group") := by
      rw [hc]; intro hh; exact absurd hh (by decide)
    simp only [hc, if_true, ite_true, if_pos]
    split
    · have h1 := summarize_events_eq
        ({ st with
            message_buffer :=
              dequeAppend st.message_buffer st.message_buffer_size m
            message_count := st.message_count + 1
            channel_message_count := st.channel_message_count + 1 })
        env .channelTrigger st.summary_message_count (some "channel") hne
      cases hsum : ({ st with
          message_buffer :=
            dequeAppend st.message_buffer st.message_buffer_size m
          message_count := st.message_count + 1
          channel_message_count :=
            st.channel_message_count + 1 }).summarize_recent_messages env
          .channelTrigger st.summary_message_count (some "channel") with
      | mk summary evs =>
          simp [hsum] at h1
          simp [hsum, h1, hstep, hpres, List.countP_cons, List.countP_append,
            hcg]
          cases summary <;>
            simp [List.countP_cons, isGroupTriggerCall]
    · simp [hstep, hpres, hcg]
  · simp only [hc, if_false, ite_false]
    by_cases hg : pyLower (pyOrStr m.message_type "unknown") = "group"
    · simp only [hg, if_true, ite_true, if_pos]
      split
      · rename_i htr
        have h1 := summarize_events_eq
          ({ st with
              message_buffer :=
                dequeAppend st.message_buffer st.message_buffer_size m
              message_count := st.message_count + 1
              group_message_count := st.group_message_count + 1 })
          env .groupTrigger st.summary_message_count (some "group") hne
        cases hsum : ({ st with
            message_buffer :=
              dequeAppend st.message_buffer st.message_buffer_size m
            message_count := st.message_count + 1
            group_message_count :=
              st.group_message_count + 1 }).summarize_recent_messages env
            .groupTrigger st.summary_message_count (some "group") with
        | mk summary evs =>
            simp [hsum] at h1
            simp [hsum, h1, hstep, hpres, List.countP_cons,
              List.countP_append, hg, htr, isGroupTriggerCall]
            cases summary <;>
              simp [List.countP_cons, isGroupTriggerCall]
      · rename_i htr
        simp [hstep, hpres, hg, htr]
    · simp [hg, hstep, hpres]

theorem runMessages_append (env : Env) :
    ∀ (l1 l2 : List MessageData) (st : NewsAnalyzer),
      runMessages env st (l1 ++ l2) =
        ((runMessages env (runMessages env st l1).1 l2).1,
          (runMessages env st l1).2 ++
            (runMessages env (runMessages env st l1).1 l2).2) := by
  intro l1
  induction l1 with
  | nil => intro l2 st; simp [runMessages]
  | cons m rest ih =>
      intro l2 st
      simp only [List.cons_append, runMessages, List.append_eq]
      rw [ih]
      simp

theorem feed_channel_no_trigger (env : Env) (m : MessageData)
    (hm : msgTypeOf m = "channel") :
    ∀ (k : Nat) (st : NewsAnalyzer), 1 ≤ st.message_buffer_size →
      st.channel_message_count + k - st.last_channel_summary_count <
        st.summary_interval_channel →
      (runMessages env st (List.replicate k m)).1.channel_message_count =
          st.channel_message_count + k ∧
      (runMessages env st (List.replicate k m)).1.last_channel_summary_count =
          st.last_channel_summary_count ∧
      (runMessages env st (List.replicate k m)).1.summary_interval_channel =
          st.summary_interval_channel ∧
      (runMessages env st (List.replicate k m)).1.message_buffer_size =
          st.message_buffer_size ∧
      (runMessages env st (List.replicate k m)).2.countP
          isChannelTriggerCall = 0 := by
  intro k
  induction k with
  | zero =>
      intro st _ _
      simp [runMessages]
  | succ k ih =>
      intro st hbuf hlt
      have hspec := add_message_channel_spec st env m hbuf
      have hnotr : ¬ (msgTypeOf m = "channel" ∧
          st.channel_message_count + 1 - st.last_channel_summary_count ≥
            st.summary_interval_channel) := by
        push_cast at hlt
        intro ⟨_, h2⟩
        omega
      rw [List.replicate_succ]
      simp only [runMessages]
      have hcount := hspec.1
      have hchan := hspec.2.1
      have hlast := hspec.2.2.1
      have hint := hspec.2.2.2.1
      have hbufp := hspec.2.2.2.2
      rw [if_neg hnotr] at hcount hlast
      rw [if_pos hm] at hchan
      have hih := ih (st.add_message env m).1
        (by rw [hbufp]; exact hbuf)
        (by rw [hchan, hlast, hint]; push_cast at hlt ⊢; omega)
      refine ⟨?_, ?_, ?_, ?_, ?_⟩
      · rw [hih.1, hchan]; push_cast; ring
      · rw [hih.2.1, hlast]
      · rw [hih.2.2.1, hint]
      · rw [hih.2.2.2.1, hbufp]
      · rw [List.countP_append, hih.2.2.2.2]
        cases h2 : (st.add_message env m).2.2 <;>
          simp [h2, List.countP_append, List.countP_cons, hcount,
            isChannelTriggerCall]

/-- C1: on every ingest, a per-category summarization trigger (the
`summarize_recent_messages` call at news_analyzer.py:92 resp. :108) fires
exactly when the category's cumulative count minus its last-trigger baseline
reaches the trigger interval, and firing resets the baseline to the
cumulative count; consequently, feeding exactly `I` channel-typed events
from a fresh baseline produces exactly one category Summarization call, and
feeding `I - 1` such events produces zero. -/
theorem category_trigger_iff_and_scenario (env : Env) (m : MessageData)
    (st : NewsAnalyzer) (n : Nat)
    (hbuf : 1 ≤ st.message_buffer_size)
    (hm : msgTypeOf m = "channel")
    (hbase : st.last_channel_summary_count = st.channel_message_count)
    (hn : (n : Int) = st.summary_interval_channel)
    (hI : 1 ≤ st.summary_interval_channel) :
    (∀ (st' : NewsAnalyzer) (m' : MessageData), 1 ≤ st'.message_buffer_size →
      ((st'.add_message env m').2.1.countP isChannelTriggerCall =
        if msgTypeOf m' = "channel" ∧
            st'.channel_message_count + 1 - st'.last_channel_summary_count ≥
              st'.summary_interval_channel then 1 else 0) ∧
      ((st'.add_message env m').1.last_channel_summary_count =
        if msgTypeOf m' = "channel" ∧
            st'.channel_message_count + 1 - st'.last_channel_summary_count ≥
              st'.summary_interval_channel then st'.channel_message_count + 1
        else st'.last_channel_summary_count) ∧
      ((st'.add_message env m').2.1.countP isGroupTriggerCall =
        if msgTypeOf m' = "group" ∧
            st'.group_message_count + 1 - st'.last_group_summary_count ≥
              st'.summary_interval_group then 1 else 0) ∧
      ((st'.add_message env m').1.last_group_summary_count =
        if msgTypeOf m' = "group" ∧
            st'.group_message_count + 1 - st'.last_group_summary_count ≥
              st'.summary_interval_group then st'.group_message_count + 1
        else st'.last_group_summary_count)) ∧
    (runMessages env st (List.replicate (n - 1) m)).2.countP
        isChannelTriggerCall = 0 ∧
    (runMessages env st (List.replicate n m)).2.countP
        isChannelTriggerCall = 1 := by
  have hn1 : 1 ≤ n := by omega
  refine ⟨?_, ?_, ?_⟩
  · intro st' m' hb
    exact ⟨(add_message_channel_spec st' env m' hb).1,
      (add_message_channel_spec st' env m' hb).2.2.1,
      (add_message_group_spec st' env m' hb).1,
      (add_message_group_spec st' env m' hb).2.2.1⟩
  · exact (feed_channel_no_trigger env m hm (n - 1) st hbuf
      (by rw [hbase]; push_cast; omega)).2.2.2.2
  · obtain ⟨j, rfl⟩ : ∃ j, n = j + 1 := ⟨n - 1, by omega⟩
    rw [List.replicate_succ']
    have hfeed := feed_channel_no_trigger env m hm j st hbuf
      (by rw [hbase]; push_cast at hn ⊢; omega)
    rw [runMessages_append]
    simp only [List.countP_append]
    rw [hfeed.2.2.2.2]
    have hb1 : 1 ≤ (runMessages env st (List.replicate j m)).1.message_buffer_size := by
      rw [hfeed.2.2.2.1]; exact hbuf
    have hspec := add_message_channel_spec
      (runMessages env st (List.replicate j m)).1 env m hb1
    have hfire : msgTypeOf m = "channel" ∧
        (runMessages env st (List.replicate j m)).1.channel_message_count + 1 -
          (runMessages env st (List.replicate j m)).1.last_channel_summary_count ≥
          (runMessages env st (List.replicate j m)).1.summary_interval_channel := by
      refine ⟨hm, ?_⟩
      rw [hfeed.1, hfeed.2.1, hfeed.2.2.1, hbase]
      push_cast at hn ⊢
      omega
    rw [if_pos hfire] at hspec
    simp only [runMessages]
    rw [List.countP_append]
    cases h2 : ((runMessages env st (List.replicate j m)).1.add_message
        env m).2.2 <;>
      simp [h2, List.countP_append, List.countP_cons, hspec.1,
        isChannelTriggerCall, runMessages]

/-- Counterexample for C2 as stated: with channel interval 1, ingesting one
channel message makes the Summarization collaborator invocation the first
trace event (index 0) while the baseline assignment
`last_channel_summary_count = channel_message_count` only happens at index 2,
after the collaborator call — the baseline is updated after the invocation,
not before. -/
theorem baseline_updated_before_call_counterexample :
    (chanInterval1State.add_message envNull sampleChannelMsg).2.1.findIdx?
        isSummarizeCall = some 0 ∧
    (chanInterval1State.add_message envNull sampleChannelMsg).2.1.findIdx?
        isSetChannelBaseline = some 2 := by
  constructor <;> decide

/-- C2 amended: whenever the per-category (channel) trigger condition is met
on ingest, the Summarization collaborator is invoked first (trace index 0)
and the baseline `last_channel_summary_count` is assigned the new cumulative
count immediately after the call returns (trace index 2), still within the
same ingest step; the trace holds exactly one such invocation and exactly one
baseline assignment, and the final state's baseline equals the cumulative
count.  Likewise the global baseline `last_analysis_count` is assigned after
the analysis-cycle events, not before them. -/
theorem baseline_updated_after_call (st : NewsAnalyzer) (env : Env)
    (m : MessageData) (hbuf : 1 ≤ st.message_buffer_size)
    (hm : msgTypeOf m = "channel")
    (htr : st.channel_message_count + 1 - st.last_channel_summary_count ≥
      st.summary_interval_channel) :
    (st.add_message env m).2.1.head? =
      some (.summarizeCall .channelTrigger (some "channel")
        st.summary_message_count) ∧
    (st.add_message env m).2.1.get? 2 =
      some (.setLastChannelSummaryCount (st.channel_message_count + 1)) ∧
    (st.add_message env m).2.1.countP isChannelTriggerCall = 1 ∧
    (st.add_message env m).2.1.countP isSetChannelBaseline = 1 ∧
    (st.add_message env m).1.last_channel_summary_count =
      st.channel_message_count + 1 ∧
    (∀ (st2 : NewsAnalyzer) (evCat : List AnalyzerEvent),
      st2.message_count - st2.last_analysis_count ≥ st2.analysis_interval →
      (st2.analyze_messages env).2 = .ok () →
      (st2.analysisStep env evCat).2.1 =
        evCat ++ (st2.analyze_messages env).1 ++
          [.setLastAnalysisCount st2.message_count]) := by
  have hspec := add_message_channel_spec st env m hbuf
  have hfire : msgTypeOf m = "channel" ∧
      st.channel_message_count + 1 - st.last_channel_summary_count ≥
        st.summary_interval_channel := ⟨hm, htr⟩
  have hcount := hspec.1
  have hlast := hspec.2.2.1
  rw [if_pos hfire] at hcount hlast
  have hsetstep := fun (st2 : NewsAnalyzer) (evCat : List AnalyzerEvent) =>
    analysisStep_countP st2 env evCat isSetChannelBaseline
      (fun _ => rfl) (fun _ => rfl) (fun _ => rfl) (fun _ => rfl)
      (fun _ => rfl) (fun _ _ => rfl) (fun _ _ => rfl) (fun _ => rfl)
      (fun _ => rfl)
  have hne : (dequeAppend st.message_buffer st.message_buffer_size m).isEmpty
      = false := dequeAppend_isEmpty _ _ _ hbuf
  have hglobal : ∀ (st2 : NewsAnalyzer) (evCat : List AnalyzerEvent),
      st2.message_count - st2.last_analysis_count ≥ st2.analysis_interval →
      (st2.analyze_messages env).2 = .ok () →
      (st2.analysisStep env evCat).2.1 =
        evCat ++ (st2.analyze_messages env).1 ++
          [.setLastAnalysisCount st2.message_count] := by
    intro st2 evCat htrig hok
    unfold NewsAnalyzer.analysisStep
    rw [if_pos htrig]
    try dsimp only
    rw [hok]
  refine ⟨?_, ?_, hcount, ?_, hlast, hglobal⟩
  all_goals
    unfold NewsAnalyzer.add_message
    unfold msgTypeOf at hm
    simp only [hm, if_true, ite_true, if_pos]
  · -- head of the trace is the collaborator invocation
    rw [if_pos (by simpa using htr)]
    obtain ⟨tail, htail⟩ := analysisStep_events_shape
      ({ st with
          message_buffer :=
            dequeAppend st.message_buffer st.message_buffer_size m
          message_count := st.message_count + 1
          channel_message_count := st.channel_message_count + 1
          last_channel_summary_count := st.channel_message_count + 1 })
      env _
    rw [htail]
    rw [summarize_events_eq _ env .channelTrigger _ _ hne]
    rfl
  · rw [if_pos (by simpa using htr)]
    obtain ⟨tail, htail⟩ := analysisStep_events_shape
      ({ st with
          message_buffer :=
            dequeAppend st.message_buffer st.message_buffer_size m
          message_count := st.message_count + 1
          channel_message_count := st.channel_message_count + 1
          last_channel_summary_count := st.channel_message_count + 1 })
      env _
    rw [htail]
    rw [summarize_events_eq _ env .channelTrigger _ _ hne]
    cases ({ st with
        message_buffer :=
          dequeAppend st.message_buffer st.message_buffer_size m
        message_count := st.message_count + 1
        channel_message_count :=
          st.channel_message_count + 1 }).summarize_recent_messages env
        .channelTrigger st.summary_message_count (some "channel") |>.1 <;>
      rfl
  · rw [if_pos (by simpa using htr)]
    rw [hsetstep]
    rw [summarize_events_eq _ env .channelTrigger _ _ hne]
    cases ({ st with
        message_buffer :=
          dequeAppend st.message_buffer st.message_buffer_size m
        message_count := st.message_count + 1
        channel_message_count :=
          st.channel_message_count + 1 }).summarize_recent_messages env
        .channelTrigger st.summary_message_count (some "channel") |>.1 <;>
      simp [List.countP_append, List.countP_cons, isSetChannelBaseline,
        isChannelTriggerCall]

/-- Witness for the amended C2 at a concrete input: channel interval 1, one
channel message. -/
theorem baseline_updated_after_call_witness :
    (chanInterval1State.add_message envNull sampleChannelMsg).2.1.head? =
      some (.summarizeCall .channelTrigger (some "channel") 100) ∧
    (chanInterval1State.add_message envNull sampleChannelMsg).2.1.get? 2 =
      some (.setLastChannelSummaryCount 1) ∧
    (chanInterval1State.add_message envNull sampleChannelMsg).2.1.countP
      isChannelTriggerCall = 1 ∧
    (chanInterval1State.add_message envNull sampleChannelMsg).2.1.countP
      isSetChannelBaseline = 1 ∧
    (chanInterval1State.add_message envNull
      sampleChannelMsg).1.last_channel_summary_count = 1 :=
  let h := baseline_updated_after_call chanInterval1State envNull
    sampleChannelMsg (by decide) (by decide) (by decide)
  ⟨h.1, h.2.1, h.2.2.1, h.2.2.2.1, h.2.2.2.2.1⟩

/-- C9: a message whose (lowercased) `message_type` is neither "channel" nor
"group" is still appended to the ring buffer and still increments the global
counter — so it counts toward the combined-assessment trigger — but neither
category counter moves, no category-trigger summarization call is made by
that ingest, and (whenever the buffer has positive capacity) the message is
retained in the buffer, not rejected. -/
theorem other_typed_message_retained (st : NewsAnalyzer) (env : Env)
    (m : MessageData) (h1 : ¬ (msgTypeOf m = "channel"))
    (h2 : ¬ (msgTypeOf m = "group")) :
    (st.add_message env m).1.message_buffer =
      dequeAppend st.message_buffer st.message_buffer_size m ∧
    (st.add_message env m).1.message_count = st.message_count + 1 ∧
    (st.add_message env m).1.channel_message_count =
      st.channel_message_count ∧
    (st.add_message env m).1.group_message_count = st.group_message_count ∧
    (st.add_message env m).1.last_channel_summary_count =
      st.last_channel_summary_count ∧
    (st.add_message env m).1.last_group_summary_count =
      st.last_group_summary_count ∧
    (st.add_message env m).2.1.countP isChannelTriggerCall = 0 ∧
    (st.add_message env m).2.1.countP isGroupTriggerCall = 0 ∧
    (1 ≤ st.message_buffer_size → m ∈ (st.add_message env m).1.message_buffer) := by
  have hpres := fun (st2 : NewsAnalyzer) (evCat : List AnalyzerEvent) =>
    analysisStep_preserves st2 env evCat
  have hstepc := fun (st2 : NewsAnalyzer) (evCat : List AnalyzerEvent) =>
    analysisStep_countP st2 env evCat isChannelTriggerCall
      (fun _ => rfl) (fun _ => rfl) (fun _ => rfl) (fun _ => rfl)
      (fun _ => rfl) (fun _ _ => rfl) (fun _ _ => rfl) (fun _ => rfl)
      (fun _ => rfl)
  have hstepg := fun (st2 : NewsAnalyzer) (evCat : List AnalyzerEvent) =>
    analysisStep_countP st2 env evCat isGroupTriggerCall
      (fun _ => rfl) (fun _ => rfl) (fun _ => rfl) (fun _ => rfl)
      (fun _ => rfl) (fun _ _ => rfl) (fun _ _ => rfl) (fun _ => rfl)
      (fun _ => rfl)
  unfold msgTypeOf at h1 h2
  unfold NewsAnalyzer.add_message
  simp only [h1, h2, if_false, ite_false]
  refine ⟨?_, ?_, ?_, ?_, ?_, ?_, by simp [hstepc], by simp [hstepg], ?_⟩
  · simp [hpres]
  · simp [hpres]
  · simp [hpres]
  · simp [hpres]
  · simp [hpres]
  · simp [hpres]
  · intro hbuf
    simp only [hpres]
    exact dequeAppend_mem_last st.message_buffer st.message_buffer_size m hbuf

/-- Witness for C9 at a concrete input: a bot-typed message on the default
configuration. -/
theorem other_typed_message_retained_witness :
    (defaultAnalyzerState.add_message envNull sampleOtherMsg).1.message_count
        = 1 ∧
    (defaultAnalyzerState.add_message envNull
        sampleOtherMsg).1.channel_message_count = 0 ∧
    (defaultAnalyzerState.add_message envNull sampleOtherMsg).2.1.countP
        isChannelTriggerCall = 0 ∧
    sampleOtherMsg ∈
      (defaultAnalyzerState.add_message envNull
        sampleOtherMsg).1.message_buffer :=
  ⟨(other_typed_message_retained defaultAnalyzerState envNull sampleOtherMsg
      (by decide) (by decide)).2.1,
    (other_typed_message_retained defaultAnalyzerState envNull sampleOtherMsg
      (by decide) (by decide)).2.2.1,
    (other_typed_message_retained defaultAnalyzerState envNull sampleOtherMsg
      (by decide) (by decide)).2.2.2.2.2.2.1,
    (other_typed_message_retained defaultAnalyzerState envNull sampleOtherMsg
      (by decide) (by decide)).2.2.2.2.2.2.2.2 (by decide)⟩

/-- Counterexample for C3 as stated: the Combined-Assessment response `[1]`
is valid JSON but cannot be parsed into the required shape (it is not even a
JSON object); the source only guards against `json.JSONDecodeError`, so the
truthy parsed list flows into `analyze_messages`, whose `.get` access raises
`AttributeError`, and the exception propagates out of the analysis step
(`add_message` returns it to the caller, and the analysis baseline
`last_analysis_count` is left unchanged at 0 instead of advancing). -/
theorem malformed_shape_discarded_counterexample :
    (analysisInterval1State.add_message envJsonList sampleChannelMsg).2.2 =
      .error .attributeError ∧
    (analysisInterval1State.add_message envJsonList
      sampleChannelMsg).1.last_analysis_count = 0 :=
  ⟨rfl, by decide⟩

/-- C3 amended: for every Combined-Assessment response that is not valid
JSON (after markdown-fence stripping `json.loads` fails), the entire result
is discarded with no partial use, the parse failure is logged, no exception
propagates out of the analysis step, the Alert Dispatcher is invoked zero
times for that cycle, and the ingest tail still advances the analysis
baseline (`last_analysis_count := message_count`) so future triggers proceed
normally.  (Responses that parse as JSON are used as-is, whatever their
shape — see the counterexample.) -/
theorem malformed_json_discarded (st : NewsAnalyzer) (env : Env)
    (resp : String) (evCat : List AnalyzerEvent)
    (hne : st.message_buffer.isEmpty = false)
    (hresp : env.volatilityResp
      (pySliceLast st.message_buffer st.volatility_message_count) = some resp)
    (hresp' : ¬ (resp = ""))
    (hparse : env.jsonLoads (stripCodeFences resp) = none)
    (htrig : st.message_count - st.last_analysis_count ≥
      st.analysis_interval) :
    (st.analyze_messages env).2 = .ok () ∧
    AnalyzerEvent.logError ("Failed to parse JSON response") ∈
      (st.analyze_messages env).1 ∧
    (st.analyze_messages env).1.countP isSendEmailCall = 0 ∧
    (st.analysisStep env evCat).2.2 = .ok () ∧
    (st.analysisStep env evCat).1.last_analysis_count = st.message_count ∧
    (st.analysisStep env evCat).2.1.countP isSendEmailCall =
      evCat.countP isSendEmailCall := by
  have hamv : st.analyze_market_volatility env st.volatility_message_count =
      (none, [AnalyzerEvent.volatilityCall st.volatility_message_count,
        .logError ("Failed to parse JSON response")]) := by
    unfold NewsAnalyzer.analyze_market_volatility
    simp [hne, hresp, hresp', hparse]
  have hanalyze : st.analyze_messages env =
      ([AnalyzerEvent.logInfo ("Starting analysis"),
          .volatilityCall st.volatility_message_count,
          .logError ("Failed to parse JSON response"),
          .logWarning ("Failed to analyze market volatility")], .ok ()) := by
    unfold NewsAnalyzer.analyze_messages
    rw [hamv]
    rfl
  refine ⟨by rw [hanalyze], by rw [hanalyze]; simp, by rw [hanalyze]; rfl,
    ?_, ?_, ?_⟩
  · unfold NewsAnalyzer.analysisStep
    rw [if_pos htrig, hanalyze]
  · unfold NewsAnalyzer.analysisStep
    rw [if_pos htrig, hanalyze]
  · unfold NewsAnalyzer.analysisStep
    rw [if_pos htrig, hanalyze]
    simp [List.countP_append, List.countP_cons, isSendEmailCall]

/-- Witness for the amended C3 at a concrete input: a non-JSON response on a
one-message buffer with analysis interval 1. -/
theorem malformed_json_discarded_witness :
    (bufferedState.analyze_messages envBadJson).2 = .ok () ∧
    AnalyzerEvent.logError ("Failed to parse JSON response") ∈
      (bufferedState.analyze_messages envBadJson).1 ∧
    (bufferedState.analyze_messages envBadJson).1.countP isSendEmailCall
        = 0 ∧
    (bufferedState.analysisStep envBadJson []).2.2 = .ok () ∧
    (bufferedState.analysisStep envBadJson []).1.last_analysis_count = 1 ∧
    (bufferedState.analysisStep envBadJson []).2.1.countP isSendEmailCall =
      List.countP isSendEmailCall [] :=
  malformed_json_discarded bufferedState envBadJson "oops" []
    (by decide) rfl (by decide) rfl (by decide)

/-- C4: on a valid Combined-Assessment response (a JSON object with boolean
signals, text summary, topic list, confidence in `[0, 1]`), the engine
gathers one more Summarization call per category (exactly one at each
analysis call site) and then, when `volatility_increased ∨
activity_increased` holds, invokes the Alert Dispatcher exactly once with a
report carrying the assessment value, the per-category summaries (hence the
topic list and confidence inside the assessment), the buffer length, the
cumulative count and the model name; when both signals are false the Alert
Dispatcher is not invoked. -/
theorem valid_alert_dispatched_once (st : NewsAnalyzer) (env : Env)
    (resp : String) (v : JsonValue) (a b : Bool) (topics : List JsonValue)
    (conf : ℚ) (sumText : String)
    (hne : st.message_buffer.isEmpty = false)
    (hresp : env.volatilityResp
      (pySliceLast st.message_buffer st.volatility_message_count) = some resp)
    (hresp' : ¬ (resp = ""))
    (hparse : env.jsonLoads (stripCodeFences resp) = some v)
    (htruthy : pyTruthy v = true)
    (hv1 : v.pyGet ("volatility_increased") = .ok (.bool a))
    (hv2 : v.pyGet ("activity_increased") = .ok (.bool b))
    (hht : v.pyGetD ("hot_topics") (.arr []) = .ok (.arr topics))
    (hconf : v.pyGetD ("confidence") (.num 0) = .ok (.num conf))
    (hsum : v.pyGetD ("summary") (.str "暂无详细说明") = .ok (.str sumText))
    (hconfrange : 0 ≤ conf ∧ conf ≤ 1)
    (htopics : ∀ t ∈ topics, ∃ s0, t = .str s0) :
    (st.analyze_messages env).2 = .ok () ∧
    (st.analyze_messages env).1.countP (isSummarizeAt .analysisChannel) = 1 ∧
    (st.analyze_messages env).1.countP (isSummarizeAt .analysisGroup) = 1 ∧
    (st.analyze_messages env).1.countP isSendEmailCall =
      (if a || b then 1 else 0) ∧
    ((a || b) = true →
      (st.analyze_messages env).1.get? 3 =
        some (.summarizeCall .analysisChannel (some "channel")
          st.summary_message_count) ∧
      (st.analyze_messages env).1.get? 4 =
        some (.summarizeCall .analysisGroup (some "group")
          st.summary_message_count) ∧
      (st.analyze_messages env).1.get? 5 =
        some (.sendEmailCall
          ⟨v,
            (st.summarize_recent_messages env .analysisChannel
              st.summary_message_count (some "channel")).1,
            (st.summarize_recent_messages env .analysisGroup
              st.summary_message_count (some "group")).1,
            st.message_buffer.length, st.message_count, st.model⟩)) := by
  have hamv : st.analyze_market_volatility env st.volatility_message_count =
      (some v, [AnalyzerEvent.volatilityCall st.volatility_message_count]) := by
    unfold NewsAnalyzer.analyze_market_volatility
    simp [hne, hresp, hresp', hparse]
  have hsc := summarize_events_eq st env .analysisChannel
    st.summary_message_count (some "channel") hne
  have hsg := summarize_events_eq st env .analysisGroup
    st.summary_message_count (some "group") hne
  have hsend : ∀ cs gs, ∃ tagev,
      st.send_alert_email env v cs gs =
        .ok [AnalyzerEvent.sendEmailCall
            ⟨v, cs, gs, st.message_buffer.length, st.message_count,
              st.model⟩, tagev] ∧
      isSendEmailCall tagev = false ∧
      isSummarizeAt .analysisChannel tagev = false ∧
      isSummarizeAt .analysisGroup tagev = false := by
    intro cs gs
    unfold NewsAnalyzer.send_alert_email
    rw [hv1, hv2, hht, hconf, hsum]
    try dsimp only
    cases hto : pyTruthy (JsonValue.arr topics) <;>
      simp only [hto, Bool.false_eq_true, if_false, ite_false, if_true,
        ite_true] <;>
      (try dsimp only) <;>
      (cases env.sendEmailResult with
        | none =>
            exact ⟨.logError ("Error sending alert email"), rfl, rfl, rfl,
              rfl⟩
        | some b0 =>
            cases b0 with
            | true =>
                exact ⟨.logSuccess ("Alert email sent successfully"), rfl,
                  rfl, rfl, rfl⟩
            | false =>
                exact ⟨.logError ("Failed to send alert email"), rfl, rfl,
                  rfl, rfl⟩)
  obtain ⟨tagev, hsendok, htag1, htag2, htag3⟩ := hsend
    (st.summarize_recent_messages env .analysisChannel
      st.summary_message_count (some "channel")).1
    (st.summarize_recent_messages env .analysisGroup
      st.summary_message_count (some "group")).1
  unfold NewsAnalyzer.analyze_messages
  rw [hamv]
  simp only [htruthy, if_true, ite_true]
  rw [hv1]
  cases a with
  | true =>
      simp only [pyTruthy, if_true, ite_true]
      rw [hsendok, hsc, hsg]
      refine ⟨rfl, ?_, ?_, ?_, ?_⟩
      · simp [List.countP_append, List.countP_cons, isSummarizeAt]
        exact htag2
      · simp [List.countP_append, List.countP_cons, isSummarizeAt]
        exact htag3
      · simp [List.countP_append, List.countP_cons, isSendEmailCall]
        exact htag1
      · intro _
        exact ⟨rfl, rfl, rfl⟩
  | false =>
      simp only [pyTruthy, Bool.false_eq_true, if_false, ite_false]
      rw [hv2]
      cases b with
      | true =>
          simp only [pyTruthy, if_true, ite_true]
          rw [hsendok, hsc, hsg]
          refine ⟨rfl, ?_, ?_, ?_, ?_⟩
          · simp [List.countP_append, List.countP_cons, isSummarizeAt]
            exact htag2
          · simp [List.countP_append, List.countP_cons, isSummarizeAt]
            exact htag3
          · simp [List.countP_append, List.countP_cons, isSendEmailCall]
            exact htag1
          · intro _
            exact ⟨rfl, rfl, rfl⟩
      | false =>
          simp only [pyTruthy, Bool.false_eq_true, if_false, ite_false]
          rw [hsc, hsg]
          refine ⟨?_, ?_, ?_, ?_, ?_⟩ <;>
            first
              | rfl
              | trivial
              | simp [List.countP_append, List.countP_cons, isSummarizeAt,
                  isSendEmailCall]
              | (intro h; simp at h)
              | (intro h; exact h.elim)

/-- Witness for C4 at a concrete input: a valid response with
`volatility_increased = true` on a one-message buffer dispatches exactly one
alert. -/
theorem valid_alert_dispatched_once_witness :
    (bufferedState.analyze_messages envValidAlert).2 = .ok () ∧
    (bufferedState.analyze_messages envValidAlert).1.countP
      (isSummarizeAt .analysisChannel) = 1 ∧
    (bufferedState.analyze_messages envValidAlert).1.countP
      (isSummarizeAt .analysisGroup) = 1 ∧
    (bufferedState.analyze_messages envValidAlert).1.countP
      isSendEmailCall = (if true || false then 1 else 0) :=
  let h := valid_alert_dispatched_once bufferedState envValidAlert "resp"
    validVolatilityJson true false [.str "btc"] (7 / 10) "volume spike"
    (by decide) rfl (by decide) rfl rfl rfl rfl rfl rfl rfl
    (by constructor <;> norm_num)
    (by intro t ht; simp at ht; exact ⟨"btc", ht⟩)
  ⟨h.1, h.2.1, h.2.2.1, h.2.2.2.1⟩

/-- Witness for C1: the §8 scenario — channel interval 50 on the
repository's default configuration; 49 channel events yield zero category
summarization calls, the 50th yields exactly one. -/
theorem category_trigger_iff_and_scenario_witness :
    (runMessages envNull defaultAnalyzerState
        (List.replicate 49 sampleChannelMsg)).2.countP
        isChannelTriggerCall = 0 ∧
    (runMessages envNull defaultAnalyzerState
        (List.replicate 50 sampleChannelMsg)).2.countP
        isChannelTriggerCall = 1 :=
  ⟨(category_trigger_iff_and_scenario envNull sampleChannelMsg
      defaultAnalyzerState 50 (by decide) (by decide) (by decide) (by decide)
      (by decide)).2.1,
    (category_trigger_iff_and_scenario envNull sampleChannelMsg
      defaultAnalyzerState 50 (by decide) (by decide) (by decide) (by decide)
      (by decide)).2.2⟩

end MarketInsight
